import Mathlib

/-!
Verification of the Pomodoro timer engine and day-keyed task scheduler.

The definitions below are a shallow embedding of the TypeScript sources:
  * the countdown timer engine (the `useTimer` portion of
    `src/hooks/use-list-manager.ts`), and
  * the day-keyed task scheduler (`src/hooks/use-scheduler.ts`).

JavaScript numbers that hold minute durations can be non-integral, so the
settings fields are modelled as rationals; epoch-millisecond timestamps and
second counters are modelled as integers.  JavaScript truthiness checks on
`number | null` and `string | null` values are modelled explicitly (`0` and
the empty string are falsy).
-/

set_option maxHeartbeats 1000000

namespace Pomodoro

/-- JavaScript `Math.round`: round half toward positive infinity. -/
def jsRound (q : ℚ) : ℤ := ⌊q + 1 / 2⌋

/-- Truthiness of a JavaScript `number | null` value: `null` and `0` are falsy. -/
def jsTruthyOptInt : Option ℤ → Bool
  | none => false
  | some n => n != 0

/-- JavaScript `String.prototype.trim`: strip whitespace from both ends
(defined over the character list so that it evaluates by kernel reduction). -/
def jsTrim (s : String) : String :=
  String.mk
    (((s.data.dropWhile Char.isWhitespace).reverse.dropWhile
        Char.isWhitespace).reverse)

/-- Truthiness of a JavaScript `string | null` value: `null` and `""` are falsy. -/
def jsTruthyOptStr : Option String → Bool
  | none => false
  | some s => s != ""

/-! ## Timer engine (`useTimer` in `src/hooks/use-list-manager.ts`) -/

/-- `TimerMode` — the string union `"focus" | "break" | "long-break"`
(`break` is a reserved word in Lean, hence `brk`). -/
inductive TimerMode
  | focus
  | brk
  | longBreak
deriving DecidableEq, Repr

/-- `TimerSettings`.  The numeric fields are JavaScript numbers; sanitization
(below) only guarantees they are finite and positive, not integral. -/
structure TimerSettings where
  focusMinutes : ℚ
  breakMinutes : ℚ
  longBreakMinutes : ℚ
  enableLongBreak : Bool
  longBreakInterval : ℚ
  soundEnabled : Bool
  notificationsEnabled : Bool
deriving DecidableEq, Repr

/-- `DEFAULT_SETTINGS` from the source. -/
def DEFAULT_SETTINGS : TimerSettings :=
  { focusMinutes := 25
    breakMinutes := 5
    longBreakMinutes := 15
    enableLongBreak := true
    longBreakInterval := 4
    soundEnabled := true
    notificationsEnabled := false }

def MINUTES_FALLBACK : ℤ := 1

/-- `clampMinutes(value) = Math.max(MINUTES_FALLBACK, Math.round(value))`. -/
def clampMinutes (value : ℚ) : ℤ := max MINUTES_FALLBACK (jsRound value)

/-- The result of coercing a JavaScript value with `Number(...)`: a finite
number, `NaN`, or an infinity.  A non-numeric input (e.g. an explicit
`undefined` in a partial-settings object) coerces to `NaN` and is represented
by the `nan` constructor. -/
inductive JsNum
  | finite (q : ℚ)
  | nan
  | inf
  | negInf
deriving DecidableEq, Repr

/-- A `Partial<TimerSettings>` object.  `none` means the key is absent.
For the boolean flags, `some none` represents a present-but-non-boolean value
(such as an explicit `undefined`), on which the `typeof x === "boolean"`
test in `sanitizeSettings` fails. -/
structure PartialTimerSettings where
  focusMinutes : Option JsNum := none
  breakMinutes : Option JsNum := none
  longBreakMinutes : Option JsNum := none
  enableLongBreak : Option (Option Bool) := none
  longBreakInterval : Option JsNum := none
  soundEnabled : Option (Option Bool) := none
  notificationsEnabled : Option (Option Bool) := none
deriving DecidableEq, Repr

/-- `sanitizeNumber(value, fallback)`: keep `Number(value)` when it is finite
and strictly positive, otherwise use the fallback.  An absent key coerces to
`NaN`, hence the `JsNum.nan` default for `none`. -/
def sanitizeNumber (value : Option JsNum) (fallback : ℚ) : ℚ :=
  match value.getD JsNum.nan with
  | JsNum.finite q => if 0 < q then q else fallback
  | _ => fallback

/-- `sanitizeSettings(settings)` from the source, field by field.  Note that
`longBreakInterval` is the only rounded-and-clamped field, and that the
`typeof x === "boolean"` test sends any non-boolean flag to the hardcoded
default, not to a prior value. -/
def sanitizeSettings (settings : PartialTimerSettings) : TimerSettings :=
  { focusMinutes := sanitizeNumber settings.focusMinutes DEFAULT_SETTINGS.focusMinutes
    breakMinutes := sanitizeNumber settings.breakMinutes DEFAULT_SETTINGS.breakMinutes
    longBreakMinutes :=
      sanitizeNumber settings.longBreakMinutes DEFAULT_SETTINGS.longBreakMinutes
    enableLongBreak :=
      match settings.enableLongBreak with
      | some (some b) => b
      | _ => DEFAULT_SETTINGS.enableLongBreak
    longBreakInterval :=
      ((max 1 (jsRound
        (match settings.longBreakInterval with
          | some (JsNum.finite q) => q
          | _ => DEFAULT_SETTINGS.longBreakInterval)) : ℤ) : ℚ)
    soundEnabled :=
      match settings.soundEnabled with
      | some (some b) => b
      | _ => DEFAULT_SETTINGS.soundEnabled
    notificationsEnabled :=
      match settings.notificationsEnabled with
      | some (some b) => b
      | _ => DEFAULT_SETTINGS.notificationsEnabled }

/-- `updateSettings(partial)`: spread the patch over the previous settings
(`{...previous, ...partial}` — a present key wins even when its value is
`undefined` or otherwise invalid) and sanitize the merged object. -/
def updateSettings (previous : TimerSettings) (patch : PartialTimerSettings) :
    TimerSettings :=
  sanitizeSettings
    { focusMinutes := some (patch.focusMinutes.getD (JsNum.finite previous.focusMinutes))
      breakMinutes := some (patch.breakMinutes.getD (JsNum.finite previous.breakMinutes))
      longBreakMinutes :=
        some (patch.longBreakMinutes.getD (JsNum.finite previous.longBreakMinutes))
      enableLongBreak := some (patch.enableLongBreak.getD (some previous.enableLongBreak))
      longBreakInterval :=
        some (patch.longBreakInterval.getD (JsNum.finite previous.longBreakInterval))
      soundEnabled := some (patch.soundEnabled.getD (some previous.soundEnabled))
      notificationsEnabled :=
        some (patch.notificationsEnabled.getD (some previous.notificationsEnabled)) }

/-- `SessionEvent`: the record emitted on every mode transition. -/
structure SessionEvent where
  mode : TimerMode
  startedAt : ℤ
  endedAt : ℤ
  scheduledDuration : ℤ
  elapsedSeconds : ℤ
  interrupted : Bool
deriving DecidableEq, Repr

/-- `getDurationForMode(targetMode)`: the configured duration of a mode in
seconds. -/
def getDurationForMode (settings : TimerSettings) : TimerMode → ℤ
  | TimerMode.focus => clampMinutes settings.focusMinutes * 60
  | TimerMode.brk => clampMinutes settings.breakMinutes * 60
  | TimerMode.longBreak => clampMinutes settings.longBreakMinutes * 60

/-- The timer engine's state.  The React refs are folded into the state:
`focusCounterRef` always mirrors `completedFocusSessions`,
`timeLeftRef` is kept equal to `timeLeft` by the sync effect, and
`sessionDurationRef` is kept equal to `getDurationForMode(mode)` by the
effect that re-runs on every `mode`/`settings`/`isRunning` change. -/
structure TimerState where
  settings : TimerSettings
  mode : TimerMode
  isRunning : Bool
  timeLeft : ℤ
  completedFocusSessions : ℕ
  sessionStart : ℤ
  sessionEvent : Option SessionEvent
deriving DecidableEq, Repr

/-- The state after the initial load: focus mode, paused, with `timeLeft` set
to the configured focus duration. -/
def initialTimerState (settings : TimerSettings) (now : ℤ) : TimerState :=
  { settings := settings
    mode := TimerMode.focus
    isRunning := false
    timeLeft := getDurationForMode settings TimerMode.focus
    completedFocusSessions := 0
    sessionStart := now
    sessionEvent := none }

/-- `transitionMode()`: emit a `SessionEvent` for the mode being left, bump
the focus counter when leaving focus, pick the next mode, and reset the
countdown and the wall-clock reference point. -/
def transitionMode (s : TimerState) (now : ℤ) : TimerState :=
  let scheduledDuration := getDurationForMode s.settings s.mode
  let elapsedSeconds := min scheduledDuration (max 0 (scheduledDuration - s.timeLeft))
  let event : SessionEvent :=
    { mode := s.mode
      startedAt := s.sessionStart
      endedAt := now
      scheduledDuration := scheduledDuration
      elapsedSeconds := elapsedSeconds
      interrupted := elapsedSeconds < scheduledDuration }
  let next : TimerMode × ℕ :=
    match s.mode with
    | TimerMode.focus =>
      let newCount := s.completedFocusSessions + 1
      let shouldUseLongBreak :=
        s.settings.enableLongBreak &&
          ((newCount : ℤ) % clampMinutes s.settings.longBreakInterval == 0)
      (if shouldUseLongBreak then TimerMode.longBreak else TimerMode.brk, newCount)
    | _ => (TimerMode.focus, s.completedFocusSessions)
  { s with
    mode := next.1
    completedFocusSessions := next.2
    sessionEvent := some event
    timeLeft := getDurationForMode s.settings next.1
    sessionStart := now }

/-- `start()`: `setIsRunning(true)`. -/
def startOp (s : TimerState) : TimerState := { s with isRunning := true }

/-- `pause()`: `setIsRunning(false)`.  When the flag actually flips, the
effect over `[settings, mode, isRunning]` re-runs with `isRunning` false and
resets `timeLeft` to the mode's configured duration, and the duration-sync
effect resets the wall-clock reference point. -/
def pauseOp (s : TimerState) (now : ℤ) : TimerState :=
  if s.isRunning then
    { s with
      isRunning := false
      timeLeft := getDurationForMode s.settings s.mode
      sessionStart := now }
  else s

/-- `reset()`: pause, return to focus with a full countdown, zero the focus
counter, and clear the last session event (no event is emitted). -/
def resetOp (s : TimerState) (now : ℤ) : TimerState :=
  { s with
    isRunning := false
    mode := TimerMode.focus
    completedFocusSessions := 0
    timeLeft := getDurationForMode s.settings TimerMode.focus
    sessionStart := now
    sessionEvent := none }

/-- `skip()`: exactly `transitionMode()`. -/
def skipOp (s : TimerState) (now : ℤ) : TimerState := transitionMode s now

/-- One interval tick: `setTimeLeft(previous => previous > 0 ? previous - 1 : 0)`
(the interval only exists while running). -/
def tickOp (s : TimerState) : TimerState :=
  { s with timeLeft := if s.timeLeft > 0 then s.timeLeft - 1 else 0 }

/-- `totalDuration` (the `useMemo` value): the configured duration of the
current mode. -/
def totalDuration (s : TimerState) : ℤ := getDurationForMode s.settings s.mode

/-- One observable step of the engine with the settings held fixed: the four
user operations plus the interval tick and the expiry effect
(`if (!isRunning || timeLeft > 0) return; transitionMode();`). -/
inductive TimerStep : TimerState → TimerState → Prop
  | start (s : TimerState) : TimerStep s (startOp s)
  | pause (s : TimerState) (now : ℤ) : TimerStep s (pauseOp s now)
  | reset (s : TimerState) (now : ℤ) : TimerStep s (resetOp s now)
  | skip (s : TimerState) (now : ℤ) : TimerStep s (skipOp s now)
  | tick (s : TimerState) (h : s.isRunning = true) : TimerStep s (tickOp s)
  | expire (s : TimerState) (now : ℤ) (hr : s.isRunning = true)
      (h0 : s.timeLeft ≤ 0) : TimerStep s (transitionMode s now)

/-- The timer states reachable from the initial state by any sequence of
`start`/`pause`/`skip`/`reset` calls, interval ticks and expiries. -/
inductive TimerReachable (settings : TimerSettings) : TimerState → Prop
  | init (now : ℤ) : TimerReachable settings (initialTimerState settings now)
  | step {s s' : TimerState} (h : TimerReachable settings s) (hs : TimerStep s s') :
      TimerReachable settings s'

/-- Eight consecutive expiries of a freshly started timer with the default
settings (`longBreakInterval = 4`, long breaks enabled): state `n` is the
state after `n` expiries. -/
def expirySeq : ℕ → TimerState
  | 0 => { initialTimerState DEFAULT_SETTINGS 0 with isRunning := true }
  | n + 1 => transitionMode (expirySeq n) 0

theorem one_le_clampMinutes (q : ℚ) : 1 ≤ clampMinutes q := le_max_left _ _

theorem getDurationForMode_pos (settings : TimerSettings) (m : TimerMode) :
    0 < getDurationForMode settings m := by
  have h1 : (1 : ℤ) ≤ clampMinutes settings.focusMinutes := one_le_clampMinutes _
  have h2 : (1 : ℤ) ≤ clampMinutes settings.breakMinutes := one_le_clampMinutes _
  have h3 : (1 : ℤ) ≤ clampMinutes settings.longBreakMinutes := one_le_clampMinutes _
  cases m <;> simp only [getDurationForMode] <;> nlinarith

theorem clampMinutes_intCast {k : ℤ} (hk : 1 ≤ k) : clampMinutes (k : ℚ) = k := by
  have hfloor : jsRound (k : ℚ) = k := by
    unfold jsRound
    rw [add_comm, Int.floor_add_int]
    norm_num
  simp [clampMinutes, hfloor, MINUTES_FALLBACK, max_eq_right hk]

theorem clampMinutes_default_focus : clampMinutes DEFAULT_SETTINGS.focusMinutes = 25 := by
  norm_num [clampMinutes, jsRound, DEFAULT_SETTINGS, MINUTES_FALLBACK]

theorem clampMinutes_default_interval :
    clampMinutes DEFAULT_SETTINGS.longBreakInterval = 4 := by
  norm_num [clampMinutes, jsRound, DEFAULT_SETTINGS, MINUTES_FALLBACK]

theorem default_focus_duration :
    getDurationForMode DEFAULT_SETTINGS TimerMode.focus = 1500 := by
  rw [getDurationForMode, clampMinutes_default_focus]
  norm_num

theorem transitionMode_sessionEvent (s : TimerState) (now : ℤ) :
    (transitionMode s now).sessionEvent =
      some
        { mode := s.mode
          startedAt := s.sessionStart
          endedAt := now
          scheduledDuration := getDurationForMode s.settings s.mode
          elapsedSeconds :=
            min (getDurationForMode s.settings s.mode)
              (max 0 (getDurationForMode s.settings s.mode - s.timeLeft))
          interrupted :=
            min (getDurationForMode s.settings s.mode)
                (max 0 (getDurationForMode s.settings s.mode - s.timeLeft)) <
              getDurationForMode s.settings s.mode } := rfl

theorem transitionMode_timeLeft_eq (s : TimerState) (now : ℤ) :
    (transitionMode s now).timeLeft = totalDuration (transitionMode s now) := rfl

/-- **C2.** Every `SessionEvent` the engine emits (natural expiry and skip both
go through `transitionMode`) satisfies `0 ≤ elapsedSeconds ≤ scheduledDuration`
and `interrupted = (elapsedSeconds < scheduledDuration)`; and `skip()` three
seconds into a default 1500-second focus interval emits
`{scheduledDuration := 1500, elapsedSeconds := 3, interrupted := true}`. -/
theorem sessionEvent_sound :
    (∀ (s : TimerState) (now : ℤ) (e : SessionEvent),
        (transitionMode s now).sessionEvent = some e →
        0 ≤ e.elapsedSeconds ∧ e.elapsedSeconds ≤ e.scheduledDuration ∧
          (e.interrupted = true ↔ e.elapsedSeconds < e.scheduledDuration)) ∧
      (skipOp
          { initialTimerState DEFAULT_SETTINGS 1000000 with
            isRunning := true
            timeLeft := 1497 }
          1003000).sessionEvent =
        some
          { mode := TimerMode.focus
            startedAt := 1000000
            endedAt := 1003000
            scheduledDuration := 1500
            elapsedSeconds := 3
            interrupted := true } := by
  constructor
  · intro s now e h
    rw [transitionMode_sessionEvent] at h
    injection h with h
    subst h
    refine ⟨?_, ?_, ?_⟩
    · exact le_min (le_of_lt (getDurationForMode_pos _ _)) (le_max_left _ _)
    · exact min_le_left _ _
    · simp
  · rw [skipOp, transitionMode_sessionEvent]
    have hd :
        getDurationForMode
          ({ initialTimerState DEFAULT_SETTINGS 1000000 with
              isRunning := true
              timeLeft := 1497 } : TimerState).settings
          ({ initialTimerState DEFAULT_SETTINGS 1000000 with
              isRunning := true
              timeLeft := 1497 } : TimerState).mode = 1500 := default_focus_duration
    rw [hd]
    norm_num [initialTimerState]

/-- Closed witness for the hypothesis-bearing part of `sessionEvent_sound`:
the bounds hold for the concrete skip event above. -/
theorem sessionEvent_sound_witness :
    (0 : ℤ) ≤ 3 ∧ (3 : ℤ) ≤ 1500 ∧ ((true = true) ↔ (3 : ℤ) < 1500) := by
  have h :=
    sessionEvent_sound.1
      { initialTimerState DEFAULT_SETTINGS 1000000 with
        isRunning := true
        timeLeft := 1497 }
      1003000
      { mode := TimerMode.focus
        startedAt := 1000000
        endedAt := 1003000
        scheduledDuration := 1500
        elapsedSeconds := 3
        interrupted := true }
      sessionEvent_sound.2
  exact h

theorem transitionMode_focus_char (s : TimerState) (now : ℤ) (k : ℤ) (hk : 1 ≤ k)
    (hset : s.settings.longBreakInterval = (k : ℚ)) :
    (s.mode = TimerMode.focus →
      (transitionMode s now).completedFocusSessions =
          s.completedFocusSessions + 1 ∧
        ((transitionMode s now).mode = TimerMode.longBreak ↔
          s.settings.enableLongBreak = true ∧
            k ∣ ((s.completedFocusSessions : ℤ) + 1)) ∧
        ((transitionMode s now).mode = TimerMode.longBreak ∨
          (transitionMode s now).mode = TimerMode.brk)) ∧
      (s.mode ≠ TimerMode.focus →
        (transitionMode s now).mode = TimerMode.focus ∧
          (transitionMode s now).completedFocusSessions =
            s.completedFocusSessions) := by
  have hclamp : clampMinutes s.settings.longBreakInterval = k := by
    rw [hset]; exact clampMinutes_intCast hk
  obtain ⟨set, mo, run, tl, c, st, ev⟩ := s
  simp only at hset hclamp
  constructor
  · intro hm
    subst hm
    refine ⟨rfl, ?_, ?_⟩
    · show (if set.enableLongBreak &&
            (((c + 1 : ℕ) : ℤ) % clampMinutes set.longBreakInterval == 0)
          then TimerMode.longBreak else TimerMode.brk) = TimerMode.longBreak ↔
        set.enableLongBreak = true ∧ k ∣ ((c : ℤ) + 1)
      rw [hclamp]
      cases henb : set.enableLongBreak with
      | false => simp
      | true =>
        simp only [Bool.true_and, true_and]
        by_cases hdvd : k ∣ ((c : ℤ) + 1)
        · have hz : ((c : ℤ) + 1) % k = 0 := Int.emod_eq_zero_of_dvd hdvd
          push_cast
          simp [hz, hdvd]
        · have hz : ¬ ((c : ℤ) + 1) % k = 0 := fun h0 =>
            hdvd (Int.dvd_of_emod_eq_zero h0)
          push_cast
          simp [hz, hdvd]
    · have hcase : ∀ (b : Bool),
          (if b then TimerMode.longBreak else TimerMode.brk) = TimerMode.longBreak ∨
            (if b then TimerMode.longBreak else TimerMode.brk) = TimerMode.brk := by
        intro b
        cases b <;> simp
      exact hcase _
  · intro hm
    cases mo with
    | focus => exact absurd rfl hm
    | brk => exact ⟨rfl, rfl⟩
    | longBreak => exact ⟨rfl, rfl⟩

theorem expirySeq_settings (n : ℕ) : (expirySeq n).settings = DEFAULT_SETTINGS := by
  induction n with
  | zero => rfl
  | succ n ih =>
    show (transitionMode (expirySeq n) 0).settings = DEFAULT_SETTINGS
    rw [show ∀ (s : TimerState) (now : ℤ), (transitionMode s now).settings = s.settings
      from fun _ _ => rfl, ih]

/-- **C3.** Leaving focus increments the completed-focus counter by one, and
the next mode is long-break exactly when long breaks are enabled and the new
counter is a (positive) multiple of `longBreakInterval`, otherwise break;
leaving either break variant the next mode is focus and the counter is
unchanged.  With the default settings, eight consecutive expiries starting in
focus produce focus, break, focus, break, focus, break, focus, long-break,
focus. -/
theorem transitionMode_mode_sequence :
    (∀ (s : TimerState) (now : ℤ) (k : ℤ), 1 ≤ k →
        s.settings.longBreakInterval = (k : ℚ) →
        (s.mode = TimerMode.focus →
          (transitionMode s now).completedFocusSessions =
              s.completedFocusSessions + 1 ∧
            ((transitionMode s now).mode = TimerMode.longBreak ↔
              s.settings.enableLongBreak = true ∧
                k ∣ ((s.completedFocusSessions : ℤ) + 1)) ∧
            ((transitionMode s now).mode = TimerMode.longBreak ∨
              (transitionMode s now).mode = TimerMode.brk)) ∧
          (s.mode ≠ TimerMode.focus →
            (transitionMode s now).mode = TimerMode.focus ∧
              (transitionMode s now).completedFocusSessions =
                s.completedFocusSessions)) ∧
      (List.range 9).map (fun n => (expirySeq n).mode) =
        [TimerMode.focus, TimerMode.brk, TimerMode.focus, TimerMode.brk,
          TimerMode.focus, TimerMode.brk, TimerMode.focus, TimerMode.longBreak,
          TimerMode.focus] := by
  refine ⟨fun s now k hk hset => transitionMode_focus_char s now k hk hset, ?_⟩
  have hkd : ∀ n, (expirySeq n).settings.longBreakInterval = ((4 : ℤ) : ℚ) := by
    intro n
    rw [expirySeq_settings]
    norm_num [DEFAULT_SETTINGS]
  have hen : ∀ n, (expirySeq n).settings.enableLongBreak = true := by
    intro n
    rw [expirySeq_settings]
    rfl
  have step := fun n => transitionMode_focus_char (expirySeq n) 0 4 (by norm_num) (hkd n)
  have m0 : (expirySeq 0).mode = TimerMode.focus := rfl
  have c0 : (expirySeq 0).completedFocusSessions = 0 := rfl
  have h0 := (step 0).1 m0
  have c1 : (expirySeq 1).completedFocusSessions = 1 := by
    show (transitionMode (expirySeq 0) 0).completedFocusSessions = 1
    rw [h0.1, c0]
  have m1 : (expirySeq 1).mode = TimerMode.brk := by
    rcases h0.2.2 with h | h
    · exfalso
      have hdv := (h0.2.1.mp h).2
      rw [c0] at hdv
      norm_num at hdv
    · exact h
  have h1 := (step 1).2 (by rw [m1]; intro hc; exact absurd hc (by decide))
  have m2 : (expirySeq 2).mode = TimerMode.focus := h1.1
  have c2 : (expirySeq 2).completedFocusSessions = 1 := by
    show (transitionMode (expirySeq 1) 0).completedFocusSessions = 1
    rw [h1.2, c1]
  have h2 := (step 2).1 m2
  have c3 : (expirySeq 3).completedFocusSessions = 2 := by
    show (transitionMode (expirySeq 2) 0).completedFocusSessions = 2
    rw [h2.1, c2]
  have m3 : (expirySeq 3).mode = TimerMode.brk := by
    rcases h2.2.2 with h | h
    · exfalso
      have hdv := (h2.2.1.mp h).2
      rw [c2] at hdv
      norm_num at hdv
    · exact h
  have h3 := (step 3).2 (by rw [m3]; intro hc; exact absurd hc (by decide))
  have m4 : (expirySeq 4).mode = TimerMode.focus := h3.1
  have c4 : (expirySeq 4).completedFocusSessions = 2 := by
    show (transitionMode (expirySeq 3) 0).completedFocusSessions = 2
    rw [h3.2, c3]
  have h4 := (step 4).1 m4
  have c5 : (expirySeq 5).completedFocusSessions = 3 := by
    show (transitionMode (expirySeq 4) 0).completedFocusSessions = 3
    rw [h4.1, c4]
  have m5 : (expirySeq 5).mode = TimerMode.brk := by
    rcases h4.2.2 with h | h
    · exfalso
      have hdv := (h4.2.1.mp h).2
      rw [c4] at hdv
      norm_num at hdv
    · exact h
  have h5 := (step 5).2 (by rw [m5]; intro hc; exact absurd hc (by decide))
  have m6 : (expirySeq 6).mode = TimerMode.focus := h5.1
  have c6 : (expirySeq 6).completedFocusSessions = 3 := by
    show (transitionMode (expirySeq 5) 0).completedFocusSessions = 3
    rw [h5.2, c5]
  have h6 := (step 6).1 m6
  have c7 : (expirySeq 7).completedFocusSessions = 4 := by
    show (transitionMode (expirySeq 6) 0).completedFocusSessions = 4
    rw [h6.1, c6]
  have m7 : (expirySeq 7).mode = TimerMode.longBreak := by
    apply h6.2.1.mpr
    refine ⟨hen 6, ?_⟩
    rw [c6]
    norm_num
  have h7 := (step 7).2 (by rw [m7]; intro hc; exact absurd hc (by decide))
  have m8 : (expirySeq 8).mode = TimerMode.focus := h7.1
  have hr : List.range 9 = [0, 1, 2, 3, 4, 5, 6, 7, 8] := by decide
  rw [hr]
  simp only [List.map_cons, List.map_nil]
  rw [m0, m1, m2, m3, m4, m5, m6, m7, m8]

/-- Closed witness for `transitionMode_mode_sequence`: instantiated at the
initial default state, the first expiry out of focus yields counter 1 and a
break-variant mode. -/
theorem transitionMode_mode_sequence_witness :
    (transitionMode (initialTimerState DEFAULT_SETTINGS 0) 0).completedFocusSessions =
        0 + 1 ∧
      ((transitionMode (initialTimerState DEFAULT_SETTINGS 0) 0).mode =
          TimerMode.longBreak ∨
        (transitionMode (initialTimerState DEFAULT_SETTINGS 0) 0).mode =
          TimerMode.brk) := by
  have h :=
    ((transitionMode_mode_sequence.1 (initialTimerState DEFAULT_SETTINGS 0) 0 4
          (by decide) (by decide)).1 rfl)
  exact ⟨h.1, h.2.2⟩

/-- **C5.** With the settings held fixed, along every sequence of
`start`/`pause`/`skip`/`reset` calls (with the interval tick and the expiry
effect), `timeLeft` stays in `[0, totalDuration]`, the configured duration of
the current mode (`timeLeft` is an integer by construction of the model). -/
theorem timeLeft_in_range (settings : TimerSettings) (s : TimerState)
    (h : TimerReachable settings s) :
    0 ≤ s.timeLeft ∧ s.timeLeft ≤ totalDuration s := by
  induction h with
  | init now =>
    exact ⟨le_of_lt (getDurationForMode_pos settings TimerMode.focus), le_of_eq rfl⟩
  | step h hs ih =>
    rename_i t t'
    cases hs with
    | start => exact ih
    | pause now =>
      by_cases hr : t.isRunning = true
      · simp only [pauseOp, if_pos hr]
        exact ⟨le_of_lt (getDurationForMode_pos t.settings t.mode), le_of_eq rfl⟩
      · simp only [pauseOp, if_neg hr]
        exact ih
    | reset now =>
      exact ⟨le_of_lt (getDurationForMode_pos t.settings TimerMode.focus), le_of_eq rfl⟩
    | skip now =>
      refine ⟨?_, le_of_eq (transitionMode_timeLeft_eq t now)⟩
      show 0 ≤ getDurationForMode t.settings (transitionMode t now).mode
      exact le_of_lt (getDurationForMode_pos _ _)
    | tick hrun =>
      have hpos : 0 < totalDuration t := getDurationForMode_pos t.settings t.mode
      obtain ⟨ih1, ih2⟩ := ih
      constructor
      · show 0 ≤ (if t.timeLeft > 0 then t.timeLeft - 1 else 0)
        split <;> omega
      · show (if t.timeLeft > 0 then t.timeLeft - 1 else 0) ≤ totalDuration t
        split <;> omega
    | expire now hr h0 =>
      refine ⟨?_, le_of_eq (transitionMode_timeLeft_eq t now)⟩
      show 0 ≤ getDurationForMode t.settings (transitionMode t now).mode
      exact le_of_lt (getDurationForMode_pos _ _)

/-- Closed witness for `timeLeft_in_range` at a concrete reachable state:
two ticks after starting the default timer. -/
theorem timeLeft_in_range_witness :
    0 ≤ (tickOp (startOp (initialTimerState DEFAULT_SETTINGS 0))).timeLeft ∧
      (tickOp (startOp (initialTimerState DEFAULT_SETTINGS 0))).timeLeft ≤
        totalDuration (tickOp (startOp (initialTimerState DEFAULT_SETTINGS 0))) :=
  timeLeft_in_range DEFAULT_SETTINGS _
    (TimerReachable.step
      (TimerReachable.step (TimerReachable.init 0) (TimerStep.start _))
      (TimerStep.tick _ rfl))

/-- **C6.** `reset()` from any state yields focus mode, a full focus countdown,
a stopped timer, a zeroed focus counter and a cleared session event (no event
is emitted: the construction never builds one). -/
theorem resetOp_spec (s : TimerState) (now : ℤ) :
    (resetOp s now).mode = TimerMode.focus ∧
      (resetOp s now).timeLeft = getDurationForMode s.settings TimerMode.focus ∧
      (resetOp s now).isRunning = false ∧
      (resetOp s now).completedFocusSessions = 0 ∧
      (resetOp s now).sessionEvent = none :=
  ⟨rfl, rfl, rfl, rfl, rfl⟩

/-- **C7, counterexample.** From prior settings with `enableLongBreak := false`,
`updateSettings {focusMinutes: 0.5, enableLongBreak: undefined}` produces
`focusMinutes = 1/2` — not an integer `≥ 1` — and flips `enableLongBreak` back
to the hardcoded default `true` instead of keeping the prior `false`. -/
theorem updateSettings_not_integral :
    (updateSettings { DEFAULT_SETTINGS with enableLongBreak := false }
          { focusMinutes := some (JsNum.finite (1 / 2))
            enableLongBreak := some none }).focusMinutes = 1 / 2 ∧
      ¬ (1 ≤ (updateSettings { DEFAULT_SETTINGS with enableLongBreak := false }
          { focusMinutes := some (JsNum.finite (1 / 2))
            enableLongBreak := some none }).focusMinutes) ∧
      (updateSettings { DEFAULT_SETTINGS with enableLongBreak := false }
          { focusMinutes := some (JsNum.finite (1 / 2))
            enableLongBreak := some none }).enableLongBreak = true ∧
      ({ DEFAULT_SETTINGS with enableLongBreak := false } : TimerSettings).enableLongBreak
        = false := by
  refine ⟨?_, ?_, ?_, rfl⟩
  · norm_num [updateSettings, sanitizeSettings, sanitizeNumber, DEFAULT_SETTINGS]
  · norm_num [updateSettings, sanitizeSettings, sanitizeNumber, DEFAULT_SETTINGS]
  · norm_num [updateSettings, sanitizeSettings, DEFAULT_SETTINGS]

theorem sanitizeNumber_pos (v : Option JsNum) (fb : ℚ) (hfb : 0 < fb) :
    0 < sanitizeNumber v fb := by
  unfold sanitizeNumber
  rcases v.getD JsNum.nan with q | _ | _ | _
  · dsimp only
    split
    · assumption
    · exact hfb
  all_goals exact hfb

theorem sanitizeNumber_finite_pos {q : ℚ} (fb : ℚ) (hq : 0 < q) :
    sanitizeNumber (some (JsNum.finite q)) fb = q := by
  unfold sanitizeNumber
  simp [hq]

theorem sanitizeNumber_not_pos {v : JsNum} (fb : ℚ)
    (hv : ∀ q, v = JsNum.finite q → ¬ 0 < q) :
    sanitizeNumber (some v) fb = fb := by
  unfold sanitizeNumber
  cases v with
  | finite q => simp [hv q rfl]
  | nan => rfl
  | inf => rfl
  | negInf => rfl

/-- **C7, amended.** After `updateSettings`: the three minute fields are
finite positive numbers but need not be integers — a present finite positive
input (integral or not) is kept as-is, a present invalid, non-finite or
non-positive input is coerced to the hardcoded default for that field, and an
absent key keeps the (positive) prior value; `longBreakInterval` alone is
rounded and clamped to an integer `≥ 1` (`max 1 (round q)` for a present
finite input, the hardcoded default for a present non-finite input); and for
each of the three boolean flags, a present-but-non-boolean input coerces the
flag to its hardcoded default — not its prior value — while an absent flag
keeps the prior value and a boolean input is taken as given. -/
theorem updateSettings_sanitized (previous : TimerSettings)
    (patch : PartialTimerSettings) :
    ∀ r, updateSettings previous patch = r →
      (0 < r.focusMinutes ∧ 0 < r.breakMinutes ∧ 0 < r.longBreakMinutes) ∧
      (1 ≤ r.longBreakInterval ∧ ∃ n : ℤ, r.longBreakInterval = (n : ℚ)) ∧
      (∀ v, patch.focusMinutes = some v →
        (∀ q, v = JsNum.finite q → 0 < q → r.focusMinutes = q) ∧
        ((∀ q, v = JsNum.finite q → ¬ 0 < q) →
          r.focusMinutes = DEFAULT_SETTINGS.focusMinutes)) ∧
      (patch.focusMinutes = none → 0 < previous.focusMinutes →
        r.focusMinutes = previous.focusMinutes) ∧
      (∀ v, patch.breakMinutes = some v →
        (∀ q, v = JsNum.finite q → 0 < q → r.breakMinutes = q) ∧
        ((∀ q, v = JsNum.finite q → ¬ 0 < q) →
          r.breakMinutes = DEFAULT_SETTINGS.breakMinutes)) ∧
      (patch.breakMinutes = none → 0 < previous.breakMinutes →
        r.breakMinutes = previous.breakMinutes) ∧
      (∀ v, patch.longBreakMinutes = some v →
        (∀ q, v = JsNum.finite q → 0 < q → r.longBreakMinutes = q) ∧
        ((∀ q, v = JsNum.finite q → ¬ 0 < q) →
          r.longBreakMinutes = DEFAULT_SETTINGS.longBreakMinutes)) ∧
      (patch.longBreakMinutes = none → 0 < previous.longBreakMinutes →
        r.longBreakMinutes = previous.longBreakMinutes) ∧
      (∀ q, patch.longBreakInterval = some (JsNum.finite q) →
        r.longBreakInterval = ((max 1 (jsRound q) : ℤ) : ℚ)) ∧
      (∀ v, patch.longBreakInterval = some v → (∀ q, v ≠ JsNum.finite q) →
        r.longBreakInterval = DEFAULT_SETTINGS.longBreakInterval) ∧
      (patch.enableLongBreak = some none →
        r.enableLongBreak = DEFAULT_SETTINGS.enableLongBreak) ∧
      (patch.enableLongBreak = none →
        r.enableLongBreak = previous.enableLongBreak) ∧
      (∀ b, patch.enableLongBreak = some (some b) → r.enableLongBreak = b) ∧
      (patch.soundEnabled = some none →
        r.soundEnabled = DEFAULT_SETTINGS.soundEnabled) ∧
      (patch.soundEnabled = none → r.soundEnabled = previous.soundEnabled) ∧
      (∀ b, patch.soundEnabled = some (some b) → r.soundEnabled = b) ∧
      (patch.notificationsEnabled = some none →
        r.notificationsEnabled = DEFAULT_SETTINGS.notificationsEnabled) ∧
      (patch.notificationsEnabled = none →
        r.notificationsEnabled = previous.notificationsEnabled) ∧
      (∀ b, patch.notificationsEnabled = some (some b) →
        r.notificationsEnabled = b) := by
  intro r hr
  subst hr
  refine ⟨⟨?_, ?_, ?_⟩, ⟨?_, ?_⟩, ?_, ?_, ?_, ?_, ?_, ?_, ?_, ?_, ?_, ?_, ?_,
    ?_, ?_, ?_, ?_, ?_, ?_⟩
  · exact sanitizeNumber_pos _ _ (by norm_num [DEFAULT_SETTINGS])
  · exact sanitizeNumber_pos _ _ (by norm_num [DEFAULT_SETTINGS])
  · exact sanitizeNumber_pos _ _ (by norm_num [DEFAULT_SETTINGS])
  · show (1 : ℚ) ≤ ((max 1 (jsRound _) : ℤ) : ℚ)
    exact_mod_cast le_max_left _ _
  · exact ⟨max 1 (jsRound _), rfl⟩
  · intro v hv
    constructor
    · intro q hq hqpos
      subst hq
      show sanitizeNumber
        (some (patch.focusMinutes.getD (JsNum.finite previous.focusMinutes)))
        DEFAULT_SETTINGS.focusMinutes = q
      rw [hv]
      exact sanitizeNumber_finite_pos _ hqpos
    · intro hinv
      show sanitizeNumber
        (some (patch.focusMinutes.getD (JsNum.finite previous.focusMinutes)))
        DEFAULT_SETTINGS.focusMinutes = DEFAULT_SETTINGS.focusMinutes
      rw [hv]
      exact sanitizeNumber_not_pos _ hinv
  · intro hnone hprev
    show sanitizeNumber
      (some (patch.focusMinutes.getD (JsNum.finite previous.focusMinutes)))
      DEFAULT_SETTINGS.focusMinutes = previous.focusMinutes
    rw [hnone]
    exact sanitizeNumber_finite_pos _ hprev
  · intro v hv
    constructor
    · intro q hq hqpos
      subst hq
      show sanitizeNumber
        (some (patch.breakMinutes.getD (JsNum.finite previous.breakMinutes)))
        DEFAULT_SETTINGS.breakMinutes = q
      rw [hv]
      exact sanitizeNumber_finite_pos _ hqpos
    · intro hinv
      show sanitizeNumber
        (some (patch.breakMinutes.getD (JsNum.finite previous.breakMinutes)))
        DEFAULT_SETTINGS.breakMinutes = DEFAULT_SETTINGS.breakMinutes
      rw [hv]
      exact sanitizeNumber_not_pos _ hinv
  · intro hnone hprev
    show sanitizeNumber
      (some (patch.breakMinutes.getD (JsNum.finite previous.breakMinutes)))
      DEFAULT_SETTINGS.breakMinutes = previous.breakMinutes
    rw [hnone]
    exact sanitizeNumber_finite_pos _ hprev
  · intro v hv
    constructor
    · intro q hq hqpos
      subst hq
      show sanitizeNumber
        (some (patch.longBreakMinutes.getD
          (JsNum.finite previous.longBreakMinutes)))
        DEFAULT_SETTINGS.longBreakMinutes = q
      rw [hv]
      exact sanitizeNumber_finite_pos _ hqpos
    · intro hinv
      show sanitizeNumber
        (some (patch.longBreakMinutes.getD
          (JsNum.finite previous.longBreakMinutes)))
        DEFAULT_SETTINGS.longBreakMinutes = DEFAULT_SETTINGS.longBreakMinutes
      rw [hv]
      exact sanitizeNumber_not_pos _ hinv
  · intro hnone hprev
    show sanitizeNumber
      (some (patch.longBreakMinutes.getD
        (JsNum.finite previous.longBreakMinutes)))
      DEFAULT_SETTINGS.longBreakMinutes = previous.longBreakMinutes
    rw [hnone]
    exact sanitizeNumber_finite_pos _ hprev
  · intro q hq
    show ((max 1 (jsRound
        (match (some (patch.longBreakInterval.getD
            (JsNum.finite previous.longBreakInterval)) : Option JsNum) with
          | some (JsNum.finite q) => q
          | _ => DEFAULT_SETTINGS.longBreakInterval)) : ℤ) : ℚ) =
      ((max 1 (jsRound q) : ℤ) : ℚ)
    rw [hq]
    rfl
  · intro v hv hne
    show ((max 1 (jsRound
        (match (some (patch.longBreakInterval.getD
            (JsNum.finite previous.longBreakInterval)) : Option JsNum) with
          | some (JsNum.finite q) => q
          | _ => DEFAULT_SETTINGS.longBreakInterval)) : ℤ) : ℚ) =
      DEFAULT_SETTINGS.longBreakInterval
    rw [hv]
    cases v with
    | finite q => exact absurd rfl (hne q)
    | nan =>
      show ((max 1 (jsRound DEFAULT_SETTINGS.longBreakInterval) : ℤ) : ℚ) =
        DEFAULT_SETTINGS.longBreakInterval
      norm_num [jsRound, DEFAULT_SETTINGS]
    | inf =>
      show ((max 1 (jsRound DEFAULT_SETTINGS.longBreakInterval) : ℤ) : ℚ) =
        DEFAULT_SETTINGS.longBreakInterval
      norm_num [jsRound, DEFAULT_SETTINGS]
    | negInf =>
      show ((max 1 (jsRound DEFAULT_SETTINGS.longBreakInterval) : ℤ) : ℚ) =
        DEFAULT_SETTINGS.longBreakInterval
      norm_num [jsRound, DEFAULT_SETTINGS]
  · intro hflag
    simp [updateSettings, sanitizeSettings, hflag]
  · intro hflag
    simp [updateSettings, sanitizeSettings, hflag]
  · intro b hflag
    simp [updateSettings, sanitizeSettings, hflag]
  · intro hflag
    simp [updateSettings, sanitizeSettings, hflag]
  · intro hflag
    simp [updateSettings, sanitizeSettings, hflag]
  · intro b hflag
    simp [updateSettings, sanitizeSettings, hflag]
  · intro hflag
    simp [updateSettings, sanitizeSettings, hflag]
  · intro hflag
    simp [updateSettings, sanitizeSettings, hflag]
  · intro b hflag
    simp [updateSettings, sanitizeSettings, hflag]

/-- Closed witness for `updateSettings_sanitized`: a patch carrying a
non-finite `focusMinutes` and a non-boolean `soundEnabled` coerces both to
their hardcoded defaults, and the minute field stays positive. -/
theorem updateSettings_sanitized_witness :
    (updateSettings DEFAULT_SETTINGS
        { focusMinutes := some JsNum.nan, soundEnabled := some none }).focusMinutes =
      DEFAULT_SETTINGS.focusMinutes ∧
      (updateSettings DEFAULT_SETTINGS
          { focusMinutes := some JsNum.nan, soundEnabled := some none }).soundEnabled =
        DEFAULT_SETTINGS.soundEnabled ∧
      0 < (updateSettings DEFAULT_SETTINGS
        { focusMinutes := some JsNum.nan, soundEnabled := some none }).focusMinutes := by
  have h := updateSettings_sanitized DEFAULT_SETTINGS
    { focusMinutes := some JsNum.nan, soundEnabled := some none }
    (updateSettings DEFAULT_SETTINGS
      { focusMinutes := some JsNum.nan, soundEnabled := some none }) rfl
  obtain ⟨hA, hB, hC, hD, hE, hF, hG, hH, hI, hJ, hK1, hK2, hK3, hL1, hL2, hL3,
    hM1, hM2, hM3⟩ := h
  exact ⟨(hC JsNum.nan rfl).2 (fun q hq => JsNum.noConfusion hq), hL1 rfl, hA.1⟩

/-! ## Day-keyed task scheduler (`src/hooks/use-scheduler.ts`) -/

/-- `TaskSessionRecord`: a `SessionEvent` plus a generated id
(`{ id: generateId(), ...event }`). -/
structure TaskSessionRecord extends SessionEvent where
  id : String
deriving DecidableEq, Repr

/-- `TaskEntry`. -/
structure TaskEntry where
  id : String
  title : String
  createdAt : ℤ
  updatedAt : ℤ
  totalFocusSeconds : ℤ
  totalBreakSeconds : ℤ
  sessions : List TaskSessionRecord
  trackedSeconds : ℤ
  timerStartedAt : Option ℤ
deriving DecidableEq, Repr

/-- `DaySchedule`. -/
structure DaySchedule where
  key : String
  dateISO : String
  createdAt : ℤ
  activeTaskId : Option String
  tasks : List TaskEntry
deriving DecidableEq, Repr

/-- `ScheduleState`: the day-key → `DaySchedule` record, as a partial map. -/
def ScheduleState := String → Option DaySchedule

/-- `computeElapsedSeconds = Math.max(0, Math.floor((now - timerStartedAt) / 1000))`;
`Int.fdiv` is floor division, matching `Math.floor` of the real quotient. -/
def computeElapsedSeconds (timerStartedAt now : ℤ) : ℤ :=
  max 0 ((now - timerStartedAt).fdiv 1000)

/-- `stopTaskTimer`: fold the in-flight timer into `trackedSeconds` before
clearing it.  `if (!task.timerStartedAt)` is a JS truthiness test, so a `0`
timestamp also counts as "not running". -/
def stopTaskTimer (task : TaskEntry) (now : ℤ) : TaskEntry :=
  if jsTruthyOptInt task.timerStartedAt then
    { task with
      trackedSeconds :=
        task.trackedSeconds + computeElapsedSeconds (task.timerStartedAt.getD 0) now
      timerStartedAt := none
      updatedAt := now }
  else task

/-- `startTaskTimer`: start (or, when already running, merely refresh) the
timer of the chosen task. -/
def startTaskTimer (task : TaskEntry) (now : ℤ) : TaskEntry :=
  if jsTruthyOptInt task.timerStartedAt then { task with updatedAt := now }
  else { task with timerStartedAt := some now, updatedAt := now }

/-- `addTask(title)` acting on the selected day, with the generated id and
`Date.now()` made explicit arguments.  A blank title is rejected before any
mutation (`if (!title.trim()) return`). -/
def addTask (day : DaySchedule) (title : String) (id : String) (now : ℤ) :
    DaySchedule :=
  if jsTrim title == "" then day
  else
    let shouldActivate := day.activeTaskId == none
    let task : TaskEntry :=
      { id := id
        title := jsTrim title
        createdAt := now
        updatedAt := now
        totalFocusSeconds := 0
        totalBreakSeconds := 0
        sessions := []
        trackedSeconds := 0
        timerStartedAt := if shouldActivate then some now else none }
    { day with
      tasks := day.tasks ++ [task]
      activeTaskId :=
        match day.activeTaskId with
        | none => some id
        | some a => some a }

/-- `updateTaskTitle(taskId, title)` on the selected day.
`title.trim() || task.title` keeps the old title for a blank input, but
`updatedAt: Date.now()` is refreshed unconditionally for the matching task. -/
def updateTaskTitle (day : DaySchedule) (taskId : String) (title : String)
    (now : ℤ) : DaySchedule :=
  { day with
    tasks := day.tasks.map fun task =>
      if task.id == taskId then
        { task with
          title := if jsTrim title == "" then task.title else jsTrim title
          updatedAt := now }
      else task }

/-- The per-task branch of `deleteTask`'s `remaining.map(...)` callback
(`nextActiveId && task.id === nextActiveId` and
`task.timerStartedAt && (!nextActiveId || task.id !== nextActiveId)` are JS
truthiness tests). -/
def deleteTaskEntry (nextActiveId : Option String) (now : ℤ) (task : TaskEntry) :
    TaskEntry :=
  if (match nextActiveId with
      | some s => s != "" && task.id == s
      | none => false) then
    startTaskTimer task now
  else if jsTruthyOptInt task.timerStartedAt &&
      (match nextActiveId with
        | some s => s == "" || task.id != s
        | none => true) then
    stopTaskTimer task now
  else task

/-- `deleteTask(taskId)` on the selected day: drop the task, fall activation
through to the first remaining task when the deleted one was active
(`remaining[0]?.id ?? null`), and start/stop timers accordingly. -/
def deleteTask (day : DaySchedule) (taskId : String) (now : ℤ) : DaySchedule :=
  let remaining := day.tasks.filter fun task => task.id != taskId
  let wasActive := day.activeTaskId == some taskId
  let nextActiveId : Option String :=
    if wasActive then remaining.head?.map TaskEntry.id else day.activeTaskId
  { day with
    tasks := remaining.map (deleteTaskEntry nextActiveId now)
    activeTaskId := nextActiveId }

/-- The per-task branch of `setActiveTask`'s `day.tasks.map(...)` callback
(`taskId && task.id === taskId` is a JS truthiness test, so an empty-string
id never matches). -/
def setActiveTaskEntry (taskId : Option String) (now : ℤ) (task : TaskEntry) :
    TaskEntry :=
  if (match taskId with
      | some s => s != "" && task.id == s
      | none => false) then
    startTaskTimer task now
  else if jsTruthyOptInt task.timerStartedAt then stopTaskTimer task now
  else task

/-- `setActiveTask(taskId)` on the selected day.  The new `activeTaskId` is
`taskId && tasks.some(task => task.id === taskId) ? taskId : null`. -/
def setActiveTask (day : DaySchedule) (taskId : Option String) (now : ℤ) :
    DaySchedule :=
  let tasks := day.tasks.map (setActiveTaskEntry taskId now)
  let nextActiveId : Option String :=
    match taskId with
    | some s =>
      if s != "" && tasks.any (fun task => task.id == s) then some s else none
    | none => none
  { day with activeTaskId := nextActiveId, tasks := tasks }

/-- `createEmptyDay(date)`, with the day-key and ISO-date derivations (which
go through locale-dependent `Intl`/`Date` formatting in the source) passed in
as functions of the epoch-millisecond timestamp, and `Date.now()` explicit. -/
def createEmptyDay (tdk tiso : ℤ → String) (date now : ℤ) : DaySchedule :=
  { key := tdk date
    dateISO := tiso date
    createdAt := now
    activeTaskId := none
    tasks := [] }

/-- `logSession(event)`: resolve the day key from the event's `endedAt`
timestamp (never from the current time), locate that day's active task, and
either drop the event (no active task, or an id that matches no task) or
append the session record and add the elapsed seconds to the focus or break
total.  The inner `Option.get?` branch mirrors `day.tasks[taskIndex]` and is
unreachable, `findIdx?` returning an in-range index. -/
def logSession (tdk tiso : ℤ → String) (now : ℤ) (rid : String)
    (previous : ScheduleState) (event : SessionEvent) : ScheduleState :=
  let dayKey := tdk event.endedAt
  let day := (previous dayKey).getD (createEmptyDay tdk tiso event.endedAt now)
  if ¬ jsTruthyOptStr day.activeTaskId then
    fun k => if k = dayKey then some day else previous k
  else
    match day.tasks.findIdx? (fun task => task.id == day.activeTaskId.getD "") with
    | none => fun k => if k = dayKey then some day else previous k
    | some taskIndex =>
      match day.tasks.get? taskIndex with
      | none => fun k => if k = dayKey then some day else previous k
      | some task =>
        let sessionRecord : TaskSessionRecord := { toSessionEvent := event, id := rid }
        let isFocus := event.mode == TimerMode.focus
        let updatedTask : TaskEntry :=
          { task with
            updatedAt := event.endedAt
            totalFocusSeconds :=
              if isFocus then task.totalFocusSeconds + event.elapsedSeconds
              else task.totalFocusSeconds
            totalBreakSeconds :=
              if !isFocus then task.totalBreakSeconds + event.elapsedSeconds
              else task.totalBreakSeconds
            sessions := task.sessions ++ [sessionRecord] }
        let tasks := day.tasks.set taskIndex updatedTask
        fun k => if k = dayKey then some { day with tasks := tasks } else previous k

/-! ### The single-stopwatch invariant -/

/-- Per-task part of the day invariant: a non-empty id, positive stopwatch
timestamps (`Date.now()` is after the epoch), and the single-stopwatch law:
the timer is running exactly when this task is the active one. -/
def TaskOk (active : Option String) (task : TaskEntry) : Prop :=
  task.id ≠ "" ∧
    (∀ t, task.timerStartedAt = some t → 0 < t) ∧
    (task.timerStartedAt ≠ none ↔ active = some task.id)

/-- Day invariant: pairwise-distinct task ids, a resolvable `activeTaskId`,
and `TaskOk` for every task. -/
def DayWF (day : DaySchedule) : Prop :=
  (day.tasks.map TaskEntry.id).Nodup ∧
    (∀ a, day.activeTaskId = some a → ∃ task ∈ day.tasks, task.id = a) ∧
    (∀ task ∈ day.tasks, TaskOk day.activeTaskId task)

/-- Day states reachable from an empty day by `addTask` (with a fresh,
non-empty generated id), `setActiveTask` and `deleteTask`, the wall clock
being after the epoch. -/
inductive DayReachable : DaySchedule → Prop
  | empty (key dateISO : String) (createdAt : ℤ) :
      DayReachable
        { key := key, dateISO := dateISO, createdAt := createdAt,
          activeTaskId := none, tasks := [] }
  | add {day : DaySchedule} (title id : String) (now : ℤ)
      (h : DayReachable day) (hid : id ∉ day.tasks.map TaskEntry.id)
      (hne : id ≠ "") (hnow : 0 < now) :
      DayReachable (addTask day title id now)
  | setActive {day : DaySchedule} (taskId : Option String) (now : ℤ)
      (h : DayReachable day) (hnow : 0 < now) :
      DayReachable (setActiveTask day taskId now)
  | delete {day : DaySchedule} (taskId : String) (now : ℤ)
      (h : DayReachable day) (hnow : 0 < now) :
      DayReachable (deleteTask day taskId now)

theorem startTaskTimer_id (task : TaskEntry) (now : ℤ) :
    (startTaskTimer task now).id = task.id := by
  unfold startTaskTimer
  split <;> rfl

theorem stopTaskTimer_id (task : TaskEntry) (now : ℤ) :
    (stopTaskTimer task now).id = task.id := by
  unfold stopTaskTimer
  split <;> rfl

theorem setActiveTaskEntry_id (taskId : Option String) (now : ℤ)
    (task : TaskEntry) : (setActiveTaskEntry taskId now task).id = task.id := by
  unfold setActiveTaskEntry
  split
  · exact startTaskTimer_id task now
  split
  · exact stopTaskTimer_id task now
  · rfl

theorem deleteTaskEntry_id (nextActiveId : Option String) (now : ℤ)
    (task : TaskEntry) : (deleteTaskEntry nextActiveId now task).id = task.id := by
  unfold deleteTaskEntry
  split
  · exact startTaskTimer_id task now
  split
  · exact stopTaskTimer_id task now
  · rfl

theorem jsTruthyOptInt_false {o : Option ℤ}
    (hpos : ∀ t, o = some t → 0 < t) (hf : jsTruthyOptInt o = false) : o = none := by
  cases o with
  | none => rfl
  | some t =>
    exfalso
    have ht := hpos t rfl
    simp [jsTruthyOptInt] at hf
    omega

theorem jsTruthyOptInt_true {o : Option ℤ}
    (hpos : ∀ t, o = some t → 0 < t) (hne : o ≠ none) : jsTruthyOptInt o = true := by
  cases o with
  | none => exact absurd rfl hne
  | some t =>
    have ht := hpos t rfl
    simp [jsTruthyOptInt]
    omega

theorem startTaskTimer_isSome (task : TaskEntry) (now : ℤ) :
    (startTaskTimer task now).timerStartedAt ≠ none := by
  unfold startTaskTimer
  split
  · rename_i ht
    intro hnone
    cases hopt : task.timerStartedAt with
    | none => rw [hopt] at ht; simp [jsTruthyOptInt] at ht
    | some t =>
      have : (startTaskTimer task now).timerStartedAt = some t := by
        unfold startTaskTimer
        rw [if_pos ht]
        exact hopt
      simp only [startTaskTimer, if_pos ht] at hnone
      rw [hopt] at hnone
      exact Option.some_ne_none t hnone
  · simp

theorem startTaskTimer_timer_pos {task : TaskEntry} {now : ℤ}
    (hpos : ∀ t, task.timerStartedAt = some t → 0 < t) (hnow : 0 < now) :
    ∀ t, (startTaskTimer task now).timerStartedAt = some t → 0 < t := by
  intro t ht
  unfold startTaskTimer at ht
  split at ht
  · exact hpos t ht
  · simp at ht
    omega

theorem stopTaskTimer_of_truthy {task : TaskEntry} {now : ℤ}
    (ht : jsTruthyOptInt task.timerStartedAt = true) :
    (stopTaskTimer task now).timerStartedAt = none := by
  unfold stopTaskTimer
  rw [if_pos ht]

theorem addTask_WF {day : DaySchedule} {title id : String} {now : ℤ}
    (h : DayWF day) (hid : id ∉ day.tasks.map TaskEntry.id) (hne : id ≠ "")
    (hnow : 0 < now) : DayWF (addTask day title id now) := by
  obtain ⟨hnodup, hactive, htasks⟩ := h
  unfold addTask
  split
  · exact ⟨hnodup, hactive, htasks⟩
  · simp only
    cases hact : day.activeTaskId with
    | none =>
      have hblank : (day.activeTaskId == none) = true := by rw [hact]; rfl
      refine ⟨?_, ?_, ?_⟩
      · simp only [List.map_append, List.map_cons, List.map_nil]
        rw [List.nodup_append]
        refine ⟨hnodup, List.nodup_singleton id, ?_⟩
        intro a ha hb
        simp only [List.mem_singleton] at hb
        subst hb
        exact hid ha
      · intro a ha
        simp only [hact] at ha
        injection ha with ha
        subst ha
        exact ⟨_, List.mem_append_right _ (List.mem_singleton_self _), rfl⟩
      · intro task' hmem'
        simp only [hact] at hmem' ⊢
        rcases List.mem_append.mp hmem' with hold | hnew
        · obtain ⟨hne', hpos', hiff'⟩ := htasks task' hold
          refine ⟨hne', hpos', ?_⟩
          rw [hact] at hiff'
          have htimer : task'.timerStartedAt = none := by
            by_contra hcon
            exact Option.noConfusion (hiff'.mp hcon)
          constructor
          · intro hcon
            exact absurd htimer hcon
          · intro heq
            injection heq with heq
            exfalso
            apply hid
            rw [heq]
            exact List.mem_map_of_mem TaskEntry.id hold
        · simp only [List.mem_singleton] at hnew
          subst hnew
          refine ⟨hne, ?_, ?_⟩
          · intro t ht
            simp only at ht
            injection ht with ht
            omega
          · simp
    | some a0 =>
      have hblank : (day.activeTaskId == none) = false := by rw [hact]; rfl
      refine ⟨?_, ?_, ?_⟩
      · simp only [List.map_append, List.map_cons, List.map_nil]
        rw [List.nodup_append]
        refine ⟨hnodup, List.nodup_singleton id, ?_⟩
        intro a ha hb
        simp only [List.mem_singleton] at hb
        subst hb
        exact hid ha
      · intro a ha
        simp only [hact] at ha
        injection ha with ha
        subst ha
        obtain ⟨task, hmem, hida⟩ := hactive a0 hact
        exact ⟨task, List.mem_append_left _ hmem, hida⟩
      · intro task' hmem'
        simp only [hact] at hmem' ⊢
        rcases List.mem_append.mp hmem' with hold | hnew
        · obtain ⟨hne', hpos', hiff'⟩ := htasks task' hold
          rw [hact] at hiff'
          exact ⟨hne', hpos', hiff'⟩
        · simp only [List.mem_singleton] at hnew
          subst hnew
          refine ⟨hne, ?_, ?_⟩
          · intro t ht
            simp only at ht
            exact absurd ht (by simp)
          · constructor
            · intro hcon
              exact absurd (by simp) hcon
            · intro heq
              injection heq with heq
              simp only at heq
              exfalso
              apply hid
              obtain ⟨task, hmem, hida⟩ := hactive a0 hact
              rw [← heq, ← hida]
              exact List.mem_map_of_mem TaskEntry.id hmem

theorem andb_true_split {a b : Bool} (h : (a && b) = true) :
    a = true ∧ b = true := by
  rw [Bool.and_eq_true] at h
  exact h

theorem andb_true_make {a b : Bool} (h1 : a = true) (h2 : b = true) :
    (a && b) = true := by
  rw [Bool.and_eq_true]
  exact ⟨h1, h2⟩

theorem setActiveTask_active_cases (day : DaySchedule) (x : Option String)
    (now : ℤ) :
    (setActiveTask day x now).activeTaskId = none ∨
      ∃ s, (setActiveTask day x now).activeTaskId = some s ∧ x = some s ∧
        s ≠ "" ∧ ∃ task ∈ day.tasks, task.id = s := by
  cases x with
  | none => exact Or.inl rfl
  | some s =>
    by_cases hcond : (s != "" &&
        (day.tasks.map (setActiveTaskEntry (some s) now)).any
          (fun task => task.id == s)) = true
    · right
      obtain ⟨h1, h2⟩ := andb_true_split hcond
      rw [List.any_eq_true] at h2
      obtain ⟨task', hmem', hid'⟩ := h2
      obtain ⟨task, htm, hteq⟩ := List.mem_map.mp hmem'
      refine ⟨s, ?_, rfl, by simpa using h1, task, htm, ?_⟩
      · show (if (s != "" &&
            (day.tasks.map (setActiveTaskEntry (some s) now)).any
              (fun task => task.id == s)) = true then some s else none) = some s
        rw [if_pos hcond]
      · have hpid := setActiveTaskEntry_id (some s) now task
        rw [hteq] at hpid
        have h3 : task'.id = s := by simpa using hid'
        rw [← hpid, h3]
    · left
      show (if (s != "" &&
          (day.tasks.map (setActiveTaskEntry (some s) now)).any
            (fun task => task.id == s)) = true then some s else none) = none
      rw [if_neg hcond]

theorem setActiveTask_WF {day : DaySchedule} {x : Option String} {now : ℤ}
    (h : DayWF day) (hnow : 0 < now) : DayWF (setActiveTask day x now) := by
  obtain ⟨hnodup, hactive, htasks⟩ := h
  have hids : (day.tasks.map (setActiveTaskEntry x now)).map TaskEntry.id
      = day.tasks.map TaskEntry.id := by
    rw [List.map_map]
    exact List.map_congr_left fun task _ => setActiveTaskEntry_id x now task
  refine ⟨?_, ?_, ?_⟩
  · show ((day.tasks.map (setActiveTaskEntry x now)).map TaskEntry.id).Nodup
    rw [hids]
    exact hnodup
  · intro a ha
    rcases setActiveTask_active_cases day x now with hA | ⟨s, hA, hxs, hsne, task, htm, hts⟩
    · rw [hA] at ha
      exact absurd ha (by simp)
    · rw [hA] at ha
      injection ha with ha
      subst ha
      refine ⟨setActiveTaskEntry x now task, ?_, ?_⟩
      · show setActiveTaskEntry x now task ∈ day.tasks.map (setActiveTaskEntry x now)
        exact List.mem_map_of_mem _ htm
      · rw [setActiveTaskEntry_id]
        exact hts
  · intro task' hmem'
    obtain ⟨task, htmem, htEq⟩ := List.mem_map.mp
      (show task' ∈ day.tasks.map (setActiveTaskEntry x now) from hmem')
    obtain ⟨hne', hpos', hiff'⟩ := htasks task htmem
    subst htEq
    cases hx : x with
    | none =>
      have hA : (setActiveTask day none now).activeTaskId = none := rfl
      rw [hA]
      by_cases htr : jsTruthyOptInt task.timerStartedAt = true
      · have hentry : setActiveTaskEntry none now task = stopTaskTimer task now := by
          unfold setActiveTaskEntry
          simp [htr]
        rw [hentry]
        refine ⟨by rw [stopTaskTimer_id]; exact hne', ?_, ?_⟩
        · intro t ht
          rw [stopTaskTimer_of_truthy htr] at ht
          exact absurd ht (by simp)
        · constructor
          · intro hcon
            exact absurd (stopTaskTimer_of_truthy htr) hcon
          · intro hcon
            exact Option.noConfusion hcon
      · have hfalse : jsTruthyOptInt task.timerStartedAt = false := by
          cases hb : jsTruthyOptInt task.timerStartedAt
          · rfl
          · exact absurd hb htr
        have hentry : setActiveTaskEntry none now task = task := by
          unfold setActiveTaskEntry
          simp [hfalse]
        rw [hentry]
        have hnone : task.timerStartedAt = none := jsTruthyOptInt_false hpos' hfalse
        refine ⟨hne', hpos', ?_⟩
        constructor
        · intro hcon
          exact absurd hnone hcon
        · intro hcon
          exact Option.noConfusion hcon
    | some s =>
      by_cases hc : (s != "" && task.id == s) = true
      · obtain ⟨hsne, hids'⟩ := andb_true_split hc
        have hteq : task.id = s := by simpa using hids'
        have hentry : setActiveTaskEntry (some s) now task = startTaskTimer task now := by
          unfold setActiveTaskEntry
          simp [hc]
        have hany : (day.tasks.map (setActiveTaskEntry (some s) now)).any
            (fun task => task.id == s) = true := by
          rw [List.any_eq_true]
          refine ⟨setActiveTaskEntry (some s) now task, List.mem_map_of_mem _ htmem, ?_⟩
          rw [setActiveTaskEntry_id]
          exact hids'
        have hA : (setActiveTask day (some s) now).activeTaskId = some s := by
          show (if (s != "" &&
              (day.tasks.map (setActiveTaskEntry (some s) now)).any
                (fun task => task.id == s)) = true then some s else none) = some s
          rw [if_pos (andb_true_make hsne hany)]
        rw [hA, hentry]
        refine ⟨by rw [startTaskTimer_id]; exact hne',
          startTaskTimer_timer_pos hpos' hnow, ?_⟩
        constructor
        · intro _
          rw [startTaskTimer_id, hteq]
        · intro _
          exact startTaskTimer_isSome task now
      · have hcfalse : (s != "" && task.id == s) = false := by
          cases hb : (s != "" && task.id == s)
          · rfl
          · exact absurd hb hc
        have hentry : setActiveTaskEntry (some s) now task =
            (if jsTruthyOptInt task.timerStartedAt = true
              then stopTaskTimer task now else task) := by
          unfold setActiveTaskEntry
          rw [show (match (some s : Option String) with
              | some s => s != "" && task.id == s
              | none => false) = (s != "" && task.id == s) from rfl]
          rw [hcfalse]
          simp
        have htimer : ∀ task2 : TaskEntry,
            task2 = setActiveTaskEntry (some s) now task →
            task2.timerStartedAt = none := by
          intro task2 h2
          rw [h2, hentry]
          by_cases htr : jsTruthyOptInt task.timerStartedAt = true
          · rw [if_pos htr]
            exact stopTaskTimer_of_truthy htr
          · have hfalse : jsTruthyOptInt task.timerStartedAt = false := by
              cases hb : jsTruthyOptInt task.timerStartedAt
              · rfl
              · exact absurd hb htr
            rw [if_neg htr]
            exact jsTruthyOptInt_false hpos' hfalse
        have htimer' : (setActiveTaskEntry (some s) now task).timerStartedAt = none :=
          htimer _ rfl
        have hidkeep := setActiveTaskEntry_id (some s) now task
        refine ⟨by rw [hidkeep]; exact hne', ?_, ?_⟩
        · intro t ht
          rw [htimer'] at ht
          exact absurd ht (by simp)
        · constructor
          · intro hcon
            exact absurd htimer' hcon
          · intro hcon
            exfalso
            rcases setActiveTask_active_cases day (some s) now with hA | ⟨s2, hA, hxs, hsne2, _⟩
            · rw [hA] at hcon
              exact Option.noConfusion hcon
            · injection hxs with hxs
              rw [← hxs] at hA hsne2
              rw [hA] at hcon
              injection hcon with hcon
              rw [hidkeep] at hcon
              have hsne' : (s != "") = true := by simpa using hsne2
              rw [hsne'] at hcfalse
              simp only [Bool.true_and] at hcfalse
              rw [← hcon] at hcfalse
              simp at hcfalse

theorem deleteTask_WF {day : DaySchedule} {taskId : String} {now : ℤ}
    (h : DayWF day) (hnow : 0 < now) : DayWF (deleteTask day taskId now) := by
  obtain ⟨hnodup, hactive, htasks⟩ := h
  have hRsub : List.Sublist
      ((day.tasks.filter fun task => task.id != taskId).map TaskEntry.id)
      (day.tasks.map TaskEntry.id) :=
    (List.filter_sublist _).map _
  have hRnodup :
      ((day.tasks.filter fun task => task.id != taskId).map TaskEntry.id).Nodup :=
    hRsub.nodup hnodup
  have hRmem : ∀ task ∈ (day.tasks.filter fun task => task.id != taskId),
      task ∈ day.tasks ∧ task.id ≠ taskId := by
    intro task hmem
    obtain ⟨h1, h2⟩ := List.mem_filter.mp hmem
    exact ⟨h1, by simpa using h2⟩
  simp only [deleteTask]
  by_cases hwa : (day.activeTaskId == some taskId) = true
  · rw [if_pos hwa]
    have hacteq : day.activeTaskId = some taskId := by simpa using hwa
    cases hrem : day.tasks.filter (fun task => task.id != taskId) with
    | nil =>
      refine ⟨by simp, ?_, by simp⟩
      intro a ha
      simp at ha
    | cons r0 rest =>
      simp only [List.head?_cons, Option.map_some']
      have hr0 := hRmem r0 (by rw [hrem]; exact List.mem_cons_self r0 rest)
      obtain ⟨hr0mem, hr0ne⟩ := hr0
      obtain ⟨hr0id, hr0pos, hr0iff⟩ := htasks r0 hr0mem
      refine ⟨?_, ?_, ?_⟩
      · have hmm : (((r0 :: rest).map (deleteTaskEntry (some r0.id) now)).map
            TaskEntry.id) = (r0 :: rest).map TaskEntry.id := by
          rw [List.map_map]
          exact List.map_congr_left fun t _ => deleteTaskEntry_id _ _ t
        rw [hmm, ← hrem]
        exact hRnodup
      · intro a ha
        injection ha with ha
        subst ha
        refine ⟨deleteTaskEntry (some r0.id) now r0,
          List.mem_map_of_mem _ (List.mem_cons_self _ _), ?_⟩
        rw [deleteTaskEntry_id]
      · intro task' hmem'
        obtain ⟨task, htm, hteq⟩ := List.mem_map.mp hmem'
        obtain ⟨htday, htne⟩ := hRmem task (by rw [hrem]; exact htm)
        obtain ⟨htid, htpos, htiff⟩ := htasks task htday
        have httimer : task.timerStartedAt = none := by
          by_contra hcon
          have h2 := htiff.mp hcon
          rw [hacteq] at h2
          injection h2 with h2
          exact htne h2.symm
        subst hteq
        by_cases hcid : (task.id == r0.id) = true
        · have hceq : task.id = r0.id := by simpa using hcid
          have hc : (r0.id != "" && task.id == r0.id) = true :=
            andb_true_make (by simpa using hr0id) hcid
          have hentry : deleteTaskEntry (some r0.id) now task =
              startTaskTimer task now := by
            unfold deleteTaskEntry
            simp [hc]
          rw [hentry]
          refine ⟨by rw [startTaskTimer_id]; exact htid,
            startTaskTimer_timer_pos htpos hnow, ?_⟩
          constructor
          · intro _
            rw [startTaskTimer_id, hceq]
          · intro _
            exact startTaskTimer_isSome task now
        · have hcne : (task.id == r0.id) = false := by
            cases hb : (task.id == r0.id)
            · rfl
            · exact absurd hb hcid
          have hentry : deleteTaskEntry (some r0.id) now task = task := by
            unfold deleteTaskEntry
            have hfalse : jsTruthyOptInt task.timerStartedAt = false := by
              rw [httimer]; rfl
            simp [hcne, hfalse]
          rw [hentry]
          refine ⟨htid, htpos, ?_⟩
          constructor
          · intro hcon
            exact absurd httimer hcon
          · intro hcon
            injection hcon with hcon
            exact False.elim ((by simpa using hcne : ¬ task.id = r0.id) hcon.symm)
  · rw [if_neg hwa]
    have hactne : day.activeTaskId ≠ some taskId := by
      intro hcon
      apply hwa
      rw [hcon]
      simp
    cases hact : day.activeTaskId with
    | none =>
      refine ⟨?_, ?_, ?_⟩
      · have hmm : (((day.tasks.filter fun task => task.id != taskId).map
            (deleteTaskEntry none now)).map TaskEntry.id) =
            (day.tasks.filter fun task => task.id != taskId).map TaskEntry.id := by
          rw [List.map_map]
          exact List.map_congr_left fun t _ => deleteTaskEntry_id _ _ t
        rw [hmm]
        exact hRnodup
      · intro a ha
        exact absurd ha (by simp)
      · intro task' hmem'
        obtain ⟨task, htm, hteq⟩ := List.mem_map.mp hmem'
        obtain ⟨htday, htne⟩ := hRmem task htm
        obtain ⟨htid, htpos, htiff⟩ := htasks task htday
        have httimer : task.timerStartedAt = none := by
          by_contra hcon
          have h2 := htiff.mp hcon
          rw [hact] at h2
          exact Option.noConfusion h2
        subst hteq
        have hentry : deleteTaskEntry none now task = task := by
          unfold deleteTaskEntry
          have hfalse : jsTruthyOptInt task.timerStartedAt = false := by
            rw [httimer]; rfl
          simp [hfalse]
        rw [hentry]
        refine ⟨htid, htpos, ?_⟩
        constructor
        · intro hcon
          exact absurd httimer hcon
        · intro hcon
          exact Option.noConfusion hcon
    | some a0 =>
      have ha0ne : a0 ≠ taskId := by
        intro hcon
        exact hactne (hact.trans (by rw [hcon]))
      obtain ⟨ataskE, hamem, haid⟩ := hactive a0 hact
      obtain ⟨haid0, _, _⟩ := htasks ataskE hamem
      have ha0str : a0 ≠ "" := by
        rw [← haid]
        exact haid0
      refine ⟨?_, ?_, ?_⟩
      · have hmm : (((day.tasks.filter fun task => task.id != taskId).map
            (deleteTaskEntry (some a0) now)).map TaskEntry.id) =
            (day.tasks.filter fun task => task.id != taskId).map TaskEntry.id := by
          rw [List.map_map]
          exact List.map_congr_left fun t _ => deleteTaskEntry_id _ _ t
        rw [hmm]
        exact hRnodup
      · intro a ha
        injection ha with ha
        subst ha
        have hin : ataskE ∈ day.tasks.filter (fun task => task.id != taskId) := by
          rw [List.mem_filter]
          refine ⟨hamem, ?_⟩
          simp [haid, ha0ne]
        refine ⟨deleteTaskEntry (some a0) now ataskE, List.mem_map_of_mem _ hin, ?_⟩
        rw [deleteTaskEntry_id]
        exact haid
      · intro task' hmem'
        obtain ⟨task, htm, hteq⟩ := List.mem_map.mp hmem'
        obtain ⟨htday, htne⟩ := hRmem task htm
        obtain ⟨htid, htpos, htiff⟩ := htasks task htday
        subst hteq
        by_cases hcid : (task.id == a0) = true
        · have hceq : task.id = a0 := by simpa using hcid
          have hc : (a0 != "" && task.id == a0) = true :=
            andb_true_make (by simpa using ha0str) hcid
          have hentry : deleteTaskEntry (some a0) now task =
              startTaskTimer task now := by
            unfold deleteTaskEntry
            simp [hc]
          rw [hentry]
          refine ⟨by rw [startTaskTimer_id]; exact htid,
            startTaskTimer_timer_pos htpos hnow, ?_⟩
          constructor
          · intro _
            rw [startTaskTimer_id, hceq]
          · intro _
            exact startTaskTimer_isSome task now
        · have hcne : (task.id == a0) = false := by
            cases hb : (task.id == a0)
            · rfl
            · exact absurd hb hcid
          have httimer : task.timerStartedAt = none := by
            by_contra hcon
            have h2 := htiff.mp hcon
            rw [hact] at h2
            injection h2 with h2
            exact (by simpa using hcne : ¬ task.id = a0) h2.symm
          have hentry : deleteTaskEntry (some a0) now task = task := by
            unfold deleteTaskEntry
            have hfalse : jsTruthyOptInt task.timerStartedAt = false := by
              rw [httimer]; rfl
            simp [hcne, hfalse]
          rw [hentry]
          refine ⟨htid, htpos, ?_⟩
          constructor
          · intro hcon
            exact absurd httimer hcon
          · intro hcon
            injection hcon with hcon
            exact False.elim ((by simpa using hcne : ¬ task.id = a0) hcon.symm)

theorem DayReachable_WF {day : DaySchedule} (h : DayReachable day) : DayWF day := by
  induction h with
  | empty key dateISO createdAt =>
    refine ⟨by simp, ?_, by simp⟩
    intro a ha
    exact absurd ha (by simp)
  | add title id now h hid hne hnow ih => exact addTask_WF ih hid hne hnow
  | setActive taskId now h hnow ih => exact setActiveTask_WF ih hnow
  | delete taskId now h hnow ih => exact deleteTask_WF ih hnow

theorem runningTasks_le_one {day : DaySchedule} (h : DayWF day) :
    (day.tasks.filter fun task => task.timerStartedAt.isSome).length ≤ 1 := by
  obtain ⟨hnodup, _, htasks⟩ := h
  cases hfil : day.tasks.filter (fun task => task.timerStartedAt.isSome) with
  | nil => simp
  | cons t1 rest =>
    cases rest with
    | nil => simp
    | cons t2 rest2 =>
      exfalso
      have hsub : List.Sublist
          ((day.tasks.filter fun task => task.timerStartedAt.isSome).map
            TaskEntry.id)
          (day.tasks.map TaskEntry.id) := (List.filter_sublist _).map _
      have hfnodup := hsub.nodup hnodup
      rw [hfil] at hfnodup
      have h1 : t1 ∈ day.tasks ∧ t1.timerStartedAt.isSome = true := by
        have hmem : t1 ∈ day.tasks.filter (fun task => task.timerStartedAt.isSome) := by
          rw [hfil]
          exact List.mem_cons_self _ _
        exact ⟨(List.mem_filter.mp hmem).1, (List.mem_filter.mp hmem).2⟩
      have h2 : t2 ∈ day.tasks ∧ t2.timerStartedAt.isSome = true := by
        have hmem : t2 ∈ day.tasks.filter (fun task => task.timerStartedAt.isSome) := by
          rw [hfil]
          exact List.mem_cons_of_mem _ (List.mem_cons_self _ _)
        exact ⟨(List.mem_filter.mp hmem).1, (List.mem_filter.mp hmem).2⟩
      obtain ⟨_, _, hiff1⟩ := htasks t1 h1.1
      obtain ⟨_, _, hiff2⟩ := htasks t2 h2.1
      have ha1 : day.activeTaskId = some t1.id :=
        hiff1.mp (Option.isSome_iff_ne_none.mp h1.2)
      have ha2 : day.activeTaskId = some t2.id :=
        hiff2.mp (Option.isSome_iff_ne_none.mp h2.2)
      have hid12 : t1.id = t2.id := by
        have h12 := ha1.symm.trans ha2
        injection h12
      simp only [List.map_cons, List.nodup_cons] at hfnodup
      exact hfnodup.1 (by rw [hid12]; exact List.mem_cons_self _ _)

/-- **C1.** After any sequence of `addTask`/`setActiveTask`/`deleteTask`
starting from an empty day, at most one `TaskEntry` of the day has a non-null
`timerStartedAt`; a non-null `activeTaskId` always references a task present
in the day's task list; and a task's `timerStartedAt` is non-null exactly
when its id equals `activeTaskId`. -/
theorem single_stopwatch_invariant (day : DaySchedule) (h : DayReachable day) :
    (day.tasks.filter fun task => task.timerStartedAt.isSome).length ≤ 1 ∧
      (∀ a, day.activeTaskId = some a → ∃ task ∈ day.tasks, task.id = a) ∧
      (∀ task ∈ day.tasks,
        (task.timerStartedAt ≠ none ↔ day.activeTaskId = some task.id)) := by
  have hwf := DayReachable_WF h
  refine ⟨runningTasks_le_one hwf, hwf.2.1, ?_⟩
  intro task hmem
  exact (hwf.2.2 task hmem).2.2

/-- Closed witness for `single_stopwatch_invariant`: one `addTask` on an
empty day (the new task auto-activates) keeps the running count at one. -/
theorem single_stopwatch_invariant_witness :
    DayReachable
      (addTask
        { key := "Saturday - 11.10.2026", dateISO := "2026-10-11", createdAt := 0,
          activeTaskId := none, tasks := [] } "Write report" "t1" 5) ∧
      ((addTask
          { key := "Saturday - 11.10.2026", dateISO := "2026-10-11", createdAt := 0,
            activeTaskId := none, tasks := [] } "Write report" "t1" 5).tasks.filter
          fun task => task.timerStartedAt.isSome).length ≤ 1 :=
  have hr : DayReachable
      (addTask
        { key := "Saturday - 11.10.2026", dateISO := "2026-10-11", createdAt := 0,
          activeTaskId := none, tasks := [] } "Write report" "t1" 5) :=
    DayReachable.add "Write report" "t1" 5
      (DayReachable.empty "Saturday - 11.10.2026" "2026-10-11" 0)
      (by decide) (by decide) (by decide)
  ⟨hr, (single_stopwatch_invariant _ hr).1⟩

/-- The id that `setActiveTask(x)` resolves to: `x` itself when it is a
truthy id matching a task present in the day, otherwise `null`
(`taskId && tasks.some(task => task.id === taskId) ? taskId : null`, stated
over the original task list — the map preserves ids). -/
def resolvedActive (day : DaySchedule) (x : Option String) : Option String :=
  match x with
  | some s =>
    if s != "" && day.tasks.any (fun task => task.id == s) then some s else none
  | none => none

theorem any_id_map (l : List TaskEntry) (f : TaskEntry → TaskEntry)
    (hf : ∀ t, (f t).id = t.id) (s : String) :
    (l.map f).any (fun task => task.id == s) = l.any (fun task => task.id == s) := by
  induction l with
  | nil => rfl
  | cons t rest ih =>
    simp only [List.map_cons, List.any_cons, hf t, ih]

theorem setActiveTask_activeTaskId_eq (day : DaySchedule) (x : Option String)
    (now : ℤ) :
    (setActiveTask day x now).activeTaskId = resolvedActive day x := by
  cases x with
  | none => rfl
  | some s =>
    show (if (s != "" && (day.tasks.map (setActiveTaskEntry (some s) now)).any
        (fun task => task.id == s)) = true then some s else none) = _
    rw [any_id_map day.tasks _ (setActiveTaskEntry_id (some s) now) s]
    rfl

theorem setActiveTaskEntry_stop {day : DaySchedule} {x : Option String}
    {now : ℤ} (task : TaskEntry) (hmem : task ∈ day.tasks)
    (hne : some task.id ≠ resolvedActive day x)
    (htr : jsTruthyOptInt task.timerStartedAt = true) :
    setActiveTaskEntry x now task = stopTaskTimer task now := by
  cases x with
  | none =>
    unfold setActiveTaskEntry
    simp [htr]
  | some s =>
    have hc : (s != "" && task.id == s) = false := by
      by_cases hcc : (s != "" && task.id == s) = true
      · exfalso
        obtain ⟨hs1, hs2⟩ := andb_true_split hcc
        apply hne
        have hteq : task.id = s := by simpa using hs2
        show some task.id =
          (if (s != "" && day.tasks.any fun task => task.id == s) = true
            then some s else none)
        rw [if_pos (andb_true_make hs1 (by
          rw [List.any_eq_true]
          exact ⟨task, hmem, hs2⟩))]
        rw [hteq]
      · cases hb : (s != "" && task.id == s)
        · rfl
        · exact absurd hb hcc
    unfold setActiveTaskEntry
    simp [hc, htr]

/-- **C8.** `setActiveTask(x)`: every running task other than the resolved
target is stopped, adding `floor((now − timerStartedAt) / 1000) ≥ 0` to its
`trackedSeconds` and clearing `timerStartedAt`; when `x` is a non-null id of
a task present in the day, that task ends up running and `activeTaskId`
becomes `x`; when `x` is null or does not resolve to an existing task,
`activeTaskId` becomes null and every running timer is stopped, exactly as
for `setActiveTask(null)`. -/
theorem setActiveTask_spec (day : DaySchedule) (x : Option String) (now : ℤ)
    (hwf : DayWF day)
    (hclock : ∀ task ∈ day.tasks, task.timerStartedAt.getD now ≤ now) :
    (setActiveTask day x now).activeTaskId = resolvedActive day x ∧
      (∀ task ∈ day.tasks, ∀ t, task.timerStartedAt = some t →
        some task.id ≠ resolvedActive day x →
        ∃ task' ∈ (setActiveTask day x now).tasks, task'.id = task.id ∧
          task'.timerStartedAt = none ∧
          task'.trackedSeconds = task.trackedSeconds + (now - t).fdiv 1000 ∧
          0 ≤ (now - t).fdiv 1000) ∧
      (∀ s, resolvedActive day x = some s →
        (setActiveTask day x now).activeTaskId = some s ∧
          ∃ task' ∈ (setActiveTask day x now).tasks, task'.id = s ∧
            task'.timerStartedAt ≠ none) ∧
      (resolvedActive day x = none →
        setActiveTask day x now = setActiveTask day none now) := by
  obtain ⟨hnodup, hactive, htasks⟩ := hwf
  refine ⟨setActiveTask_activeTaskId_eq day x now, ?_, ?_, ?_⟩
  · intro task hmem t ht hne
    obtain ⟨hid, hpos, hiff⟩ := htasks task hmem
    have htr : jsTruthyOptInt task.timerStartedAt = true :=
      jsTruthyOptInt_true hpos (by rw [ht]; exact Option.some_ne_none t)
    have hle : t ≤ now := by
      have hcl := hclock task hmem
      rw [ht] at hcl
      exact hcl
    have hdiv : 0 ≤ (now - t).fdiv 1000 := Int.fdiv_nonneg (by omega) (by norm_num)
    have hentry : setActiveTaskEntry x now task = stopTaskTimer task now :=
      setActiveTaskEntry_stop task hmem hne htr
    refine ⟨setActiveTaskEntry x now task, ?_, ?_, ?_, ?_, hdiv⟩
    · show setActiveTaskEntry x now task ∈ day.tasks.map (setActiveTaskEntry x now)
      exact List.mem_map_of_mem _ hmem
    · rw [setActiveTaskEntry_id]
    · rw [hentry]
      exact stopTaskTimer_of_truthy htr
    · rw [hentry]
      unfold stopTaskTimer
      rw [if_pos htr]
      show task.trackedSeconds +
        computeElapsedSeconds (task.timerStartedAt.getD 0) now = _
      rw [ht]
      show task.trackedSeconds + computeElapsedSeconds t now = _
      unfold computeElapsedSeconds
      rw [max_eq_right hdiv]
  · intro s hs
    refine ⟨by rw [setActiveTask_activeTaskId_eq]; exact hs, ?_⟩
    cases x with
    | none => exact absurd hs (by simp [resolvedActive])
    | some s0 =>
      have hs' : (if (s0 != "" && day.tasks.any fun task => task.id == s0) = true
          then some s0 else none) = some s := hs
      by_cases hcond : (s0 != "" && day.tasks.any fun task => task.id == s0) = true
      · rw [if_pos hcond] at hs'
        injection hs' with hs'
        obtain ⟨hs1, hany⟩ := andb_true_split hcond
        rw [List.any_eq_true] at hany
        obtain ⟨task, hmem, htid⟩ := hany
        have hentry : setActiveTaskEntry (some s0) now task =
            startTaskTimer task now := by
          unfold setActiveTaskEntry
          simp [andb_true_make hs1 htid]
        refine ⟨setActiveTaskEntry (some s0) now task, ?_, ?_, ?_⟩
        · show setActiveTaskEntry (some s0) now task ∈
            day.tasks.map (setActiveTaskEntry (some s0) now)
          exact List.mem_map_of_mem _ hmem
        · rw [setActiveTaskEntry_id, ← hs']
          simpa using htid
        · rw [hentry]
          exact startTaskTimer_isSome task now
      · rw [if_neg hcond] at hs'
        exact absurd hs' (by simp)
  · intro hres
    have hts : day.tasks.map (setActiveTaskEntry x now) =
        day.tasks.map (setActiveTaskEntry none now) := by
      apply List.map_congr_left
      intro task hmem
      cases x with
      | none => rfl
      | some s =>
        have hres' : (if (s != "" && day.tasks.any fun task => task.id == s) = true
            then some s else none) = none := hres
        have hcond : (s != "" && task.id == s) = false := by
          by_cases hs0 : (s != "") = true
          · have hanyf : (day.tasks.any fun t => t.id == s) = false := by
              by_cases hb : (day.tasks.any fun t => t.id == s) = true
              · exfalso
                rw [if_pos (andb_true_make hs0 hb)] at hres'
                exact Option.noConfusion hres'
              · cases hb2 : (day.tasks.any fun t => t.id == s)
                · rfl
                · exact absurd hb2 hb
            have htid : (task.id == s) = false := by
              by_cases hb : (task.id == s) = true
              · exfalso
                have : (day.tasks.any fun t => t.id == s) = true := by
                  rw [List.any_eq_true]
                  exact ⟨task, hmem, hb⟩
                rw [this] at hanyf
                exact Bool.noConfusion hanyf
              · cases hb2 : (task.id == s)
                · rfl
                · exact absurd hb2 hb
            simp [htid]
          · have hs0' : (s != "") = false := by
              cases hb : (s != "")
              · rfl
              · exact absurd hb hs0
            simp [hs0']
        show setActiveTaskEntry (some s) now task = setActiveTaskEntry none now task
        unfold setActiveTaskEntry
        simp [hcond]
    have hA : (setActiveTask day x now).activeTaskId =
        (setActiveTask day none now).activeTaskId := by
      rw [setActiveTask_activeTaskId_eq, setActiveTask_activeTaskId_eq, hres]
      rfl
    show DaySchedule.mk day.key day.dateISO day.createdAt
        ((setActiveTask day x now).activeTaskId)
        (day.tasks.map (setActiveTaskEntry x now)) =
      DaySchedule.mk day.key day.dateISO day.createdAt
        ((setActiveTask day none now).activeTaskId)
        (day.tasks.map (setActiveTaskEntry none now))
    rw [hA, hts]

/-- Closed witness for `setActiveTask_spec`: on a freshly created day whose
only task auto-started at 5000 ms, `setActiveTask(null)` at 12345 ms clears
the timer and folds in `floor(7345 / 1000) = 7` seconds. -/
theorem setActiveTask_spec_witness :
    ∃ task' ∈ (setActiveTask
        (addTask
          { key := "D", dateISO := "2026-10-11", createdAt := 0,
            activeTaskId := none, tasks := [] } "Write report" "t1" 5000)
        none 12345).tasks,
      task'.id = "t1" ∧ task'.timerStartedAt = none ∧
        task'.trackedSeconds = 0 + ((12345 : ℤ) - 5000).fdiv 1000 ∧
        0 ≤ ((12345 : ℤ) - 5000).fdiv 1000 := by
  have hr : DayReachable
      (addTask
        { key := "D", dateISO := "2026-10-11", createdAt := 0,
          activeTaskId := none, tasks := [] } "Write report" "t1" 5000) :=
    DayReachable.add "Write report" "t1" 5000
      (DayReachable.empty "D" "2026-10-11" 0) (by decide) (by decide) (by decide)
  have h := setActiveTask_spec
    (addTask
      { key := "D", dateISO := "2026-10-11", createdAt := 0,
        activeTaskId := none, tasks := [] } "Write report" "t1" 5000)
    none 12345 (DayReachable_WF hr) (by decide)
  exact h.2.1
    { id := "t1", title := "Write report", createdAt := 5000, updatedAt := 5000,
      totalFocusSeconds := 0, totalBreakSeconds := 0, sessions := [],
      trackedSeconds := 0, timerStartedAt := some 5000 }
    (by decide) 5000 (by decide) (by decide)

/-- **C10.** Re-activating the day's already-running active task is
idempotent on the stopwatch: `activeTaskId` is unchanged and the task list
only has the matching task's `updatedAt` refreshed — `timerStartedAt` keeps
its original timestamp and `trackedSeconds` is unchanged, so repeated
activation never restarts or double-counts tracked time. -/
theorem setActiveTask_idempotent (day : DaySchedule) (a : String) (now : ℤ)
    (hwf : DayWF day) (hact : day.activeTaskId = some a) :
    (setActiveTask day (some a) now).activeTaskId = day.activeTaskId ∧
      (setActiveTask day (some a) now).tasks =
        day.tasks.map fun task =>
          if task.id == a then { task with updatedAt := now } else task := by
  obtain ⟨hnodup, hactive, htasks⟩ := hwf
  obtain ⟨atask, hamem, haid⟩ := hactive a hact
  obtain ⟨haid0, hapos, haiff⟩ := htasks atask hamem
  have hane : a ≠ "" := by rw [← haid]; exact haid0
  have hpt : ∀ task ∈ day.tasks, setActiveTaskEntry (some a) now task =
      (if task.id == a then { task with updatedAt := now } else task) := by
    intro task hmem
    obtain ⟨hid, hpos, hiff⟩ := htasks task hmem
    by_cases hc : (task.id == a) = true
    · have hteq : task.id = a := by simpa using hc
      have hrun : task.timerStartedAt ≠ none := hiff.mpr (by rw [hact, hteq])
      have htr : jsTruthyOptInt task.timerStartedAt = true :=
        jsTruthyOptInt_true hpos hrun
      have hcond : (a != "" && task.id == a) = true :=
        andb_true_make (by simpa using hane) hc
      have hentry : setActiveTaskEntry (some a) now task =
          startTaskTimer task now := by
        unfold setActiveTaskEntry
        simp [hcond]
      rw [hentry, if_pos hc]
      unfold startTaskTimer
      rw [if_pos htr]
    · have hcne : (task.id == a) = false := by
        cases hb : (task.id == a)
        · rfl
        · exact absurd hb hc
      have hnrun : task.timerStartedAt = none := by
        by_contra hcon
        have h2 := hiff.mp hcon
        rw [hact] at h2
        injection h2 with h2
        exact (by simpa using hcne : ¬ task.id = a) h2.symm
      have hfalse : jsTruthyOptInt task.timerStartedAt = false := by
        rw [hnrun]; rfl
      have hentry : setActiveTaskEntry (some a) now task = task := by
        unfold setActiveTaskEntry
        simp [hcne, hfalse]
      rw [hentry, if_neg hc]
  constructor
  · rw [setActiveTask_activeTaskId_eq, hact]
    show (if (a != "" && day.tasks.any fun task => task.id == a) = true
        then some a else none) = some a
    rw [if_pos (andb_true_make (by simpa using hane) (by
      rw [List.any_eq_true]
      exact ⟨atask, hamem, by simpa using haid⟩))]
  · show day.tasks.map (setActiveTaskEntry (some a) now) = _
    exact List.map_congr_left hpt

/-- Closed witness for `setActiveTask_idempotent`: re-activating the
auto-started task of a one-task day refreshes only its `updatedAt`. -/
theorem setActiveTask_idempotent_witness :
    (setActiveTask
        (addTask
          { key := "D", dateISO := "2026-10-11", createdAt := 0,
            activeTaskId := none, tasks := [] } "Write report" "t1" 5000)
        (some "t1") 9000).activeTaskId =
      (addTask
        { key := "D", dateISO := "2026-10-11", createdAt := 0,
          activeTaskId := none, tasks := [] } "Write report" "t1" 5000).activeTaskId ∧
      (setActiveTask
          (addTask
            { key := "D", dateISO := "2026-10-11", createdAt := 0,
              activeTaskId := none, tasks := [] } "Write report" "t1" 5000)
          (some "t1") 9000).tasks =
        (addTask
          { key := "D", dateISO := "2026-10-11", createdAt := 0,
            activeTaskId := none, tasks := [] } "Write report" "t1" 5000).tasks.map
          fun task =>
            if task.id == "t1" then { task with updatedAt := 9000 } else task :=
  have hr : DayReachable
      (addTask
        { key := "D", dateISO := "2026-10-11", createdAt := 0,
          activeTaskId := none, tasks := [] } "Write report" "t1" 5000) :=
    DayReachable.add "Write report" "t1" 5000
      (DayReachable.empty "D" "2026-10-11" 0) (by decide) (by decide) (by decide)
  setActiveTask_idempotent _ "t1" 9000 (DayReachable_WF hr) (by decide)

/-- **C9, counterexample.** A whitespace-only title is not a complete no-op:
the prior title is kept, but the matching task's `updatedAt` is refreshed
(`{ ...task, title: title.trim() || task.title, updatedAt: Date.now() }`). -/
theorem updateTaskTitle_blank_refreshes_updatedAt :
    jsTrim "   " = "" ∧
      (updateTaskTitle
          { key := "D", dateISO := "2026-10-11", createdAt := 0,
            activeTaskId := some "t1",
            tasks := [{ id := "t1", title := "Old", createdAt := 1,
                        updatedAt := 5, totalFocusSeconds := 0,
                        totalBreakSeconds := 0, sessions := [],
                        trackedSeconds := 0, timerStartedAt := none }] }
          "t1" "   " 99).tasks.map TaskEntry.updatedAt = [99] ∧
      (updateTaskTitle
          { key := "D", dateISO := "2026-10-11", createdAt := 0,
            activeTaskId := some "t1",
            tasks := [{ id := "t1", title := "Old", createdAt := 1,
                        updatedAt := 5, totalFocusSeconds := 0,
                        totalBreakSeconds := 0, sessions := [],
                        trackedSeconds := 0, timerStartedAt := none }] }
          "t1" "   " 99).tasks.map TaskEntry.title = ["Old"] ∧
      (99 : ℤ) ≠ 5 := by
  refine ⟨by decide, by decide, by decide, by decide⟩

/-- **C9, amended.** `updateTaskTitle(id, title)`: a blank (whitespace-only)
title keeps the prior title but still refreshes the matching task's
`updatedAt`; a non-blank title sets the trimmed title and refreshes
`updatedAt`; every other field of the matching task, every other task and
the day's `activeTaskId` are unchanged. -/
theorem updateTaskTitle_spec (day : DaySchedule) (taskId title : String)
    (now : ℤ) :
    (updateTaskTitle day taskId title now).activeTaskId = day.activeTaskId ∧
      (updateTaskTitle day taskId title now).tasks.length = day.tasks.length ∧
      (∀ i task, day.tasks.get? i = some task →
        (task.id ≠ taskId →
          (updateTaskTitle day taskId title now).tasks.get? i = some task) ∧
        (task.id = taskId →
          (updateTaskTitle day taskId title now).tasks.get? i =
            some { task with
              title := if jsTrim title == "" then task.title else jsTrim title
              updatedAt := now })) := by
  refine ⟨rfl, by simp [updateTaskTitle], ?_⟩
  intro i task hget
  have hmap : (updateTaskTitle day taskId title now).tasks.get? i =
      (day.tasks.get? i).map (fun task =>
        if task.id == taskId then
          { task with
            title := if jsTrim title == "" then task.title else jsTrim title
            updatedAt := now }
        else task) := List.get?_map _ _ _
  constructor
  · intro hne
    rw [hmap, hget]
    simp only [Option.map_some']
    rw [if_neg (by simpa using hne)]
  · intro heq
    rw [hmap, hget]
    simp only [Option.map_some']
    rw [if_pos (by simpa using heq)]

/-- Closed witness for `updateTaskTitle_spec`: renaming the single task of a
concrete day writes the trimmed title and the new `updatedAt`. -/
theorem updateTaskTitle_spec_witness :
    (updateTaskTitle
        { key := "D", dateISO := "2026-10-11", createdAt := 0,
          activeTaskId := some "t1",
          tasks := [{ id := "t1", title := "Old", createdAt := 1,
                      updatedAt := 5, totalFocusSeconds := 0,
                      totalBreakSeconds := 0, sessions := [],
                      trackedSeconds := 0, timerStartedAt := none }] }
        "t1" " New " 7).tasks.get? 0 =
      some { id := "t1",
             title := if jsTrim " New " == "" then "Old" else jsTrim " New ",
             createdAt := 1, updatedAt := 7, totalFocusSeconds := 0,
             totalBreakSeconds := 0, sessions := [], trackedSeconds := 0,
             timerStartedAt := none } :=
  ((updateTaskTitle_spec
      { key := "D", dateISO := "2026-10-11", createdAt := 0,
        activeTaskId := some "t1",
        tasks := [{ id := "t1", title := "Old", createdAt := 1,
                    updatedAt := 5, totalFocusSeconds := 0,
                    totalBreakSeconds := 0, sessions := [],
                    trackedSeconds := 0, timerStartedAt := none }] }
      "t1" " New " 7).2.2 0
    { id := "t1", title := "Old", createdAt := 1, updatedAt := 5,
      totalFocusSeconds := 0, totalBreakSeconds := 0, sessions := [],
      trackedSeconds := 0, timerStartedAt := none } (by decide)).2 (by decide)

/-- **C4.** `logSession(event)`: the day key is derived from the event's
`endedAt` timestamp (every other key of the schedule is untouched); when the
day's active id is falsy or matches no task, the event is dropped — the day
is stored back unchanged, so no task's sessions, `totalFocusSeconds` or
`totalBreakSeconds` changes; otherwise exactly one session record (the event
plus the generated id) is appended to the active task's session list and
`elapsedSeconds` is added to `totalFocusSeconds` for a focus event, else to
`totalBreakSeconds`. -/
theorem logSession_spec (tdk tiso : ℤ → String) (now : ℤ) (rid : String)
    (previous : ScheduleState) (event : SessionEvent) :
    (∀ k, k ≠ tdk event.endedAt →
      logSession tdk tiso now rid previous event k = previous k) ∧
      (∀ day, (previous (tdk event.endedAt)).getD
          (createEmptyDay tdk tiso event.endedAt now) = day →
        ((jsTruthyOptStr day.activeTaskId = false ∨
            day.tasks.findIdx?
              (fun task => task.id == day.activeTaskId.getD "") = none) →
          logSession tdk tiso now rid previous event (tdk event.endedAt) =
            some day) ∧
        (∀ i task,
          jsTruthyOptStr day.activeTaskId = true →
          day.tasks.findIdx?
            (fun task => task.id == day.activeTaskId.getD "") = some i →
          day.tasks.get? i = some task →
          logSession tdk tiso now rid previous event (tdk event.endedAt) =
            some { day with
              tasks := day.tasks.set i
                { task with
                  updatedAt := event.endedAt
                  totalFocusSeconds :=
                    if event.mode == TimerMode.focus
                    then task.totalFocusSeconds + event.elapsedSeconds
                    else task.totalFocusSeconds
                  totalBreakSeconds :=
                    if !(event.mode == TimerMode.focus)
                    then task.totalBreakSeconds + event.elapsedSeconds
                    else task.totalBreakSeconds
                  sessions :=
                    task.sessions ++ [{ toSessionEvent := event, id := rid }] } })) := by
  have hupd : ∃ d : DaySchedule, logSession tdk tiso now rid previous event =
      fun k => if k = tdk event.endedAt then some d else previous k := by
    unfold logSession
    simp only
    repeat' split
    all_goals exact ⟨_, rfl⟩
  constructor
  · intro k hk
    obtain ⟨d, hd⟩ := hupd
    rw [hd]
    simp [hk]
  · intro day hday
    constructor
    · intro hcase
      unfold logSession
      simp only
      rw [hday]
      rcases hcase with hfalse | hnone
      · rw [if_pos (by rw [hfalse]; simp)]
        simp
      · by_cases htr2 : jsTruthyOptStr day.activeTaskId = true
        · rw [if_neg (by simp [htr2]), hnone]
          simp
        · rw [if_pos htr2]
          simp
    · intro i task htr hidx hget
      unfold logSession
      simp only
      rw [hday]
      rw [if_neg (by simp [htr])]
      rw [hidx]
      simp only
      rw [hget]
      simp

/-- Closed witness for `logSession_spec`: a focus event ending at 77 ms logs
against the day keyed by its `endedAt`, appending one record and adding its
3 elapsed seconds to `totalFocusSeconds`. -/
theorem logSession_spec_witness :
    logSession (fun _ => "D") (fun _ => "iso") 99 "r1"
      (fun k =>
        if k = "D" then
          some
            { key := "D", dateISO := "2026-10-11", createdAt := 5,
              activeTaskId := some "t1",
              tasks := [{ id := "t1", title := "T", createdAt := 0,
                          updatedAt := 0, totalFocusSeconds := 0,
                          totalBreakSeconds := 0, sessions := [],
                          trackedSeconds := 0, timerStartedAt := none }] }
        else none)
      { mode := TimerMode.focus, startedAt := 0, endedAt := 77,
        scheduledDuration := 1500, elapsedSeconds := 3, interrupted := true }
      "D" =
      some
        { key := "D", dateISO := "2026-10-11", createdAt := 5,
          activeTaskId := some "t1",
          tasks := [{ id := "t1", title := "T", createdAt := 0,
                      updatedAt := 77, totalFocusSeconds := 3,
                      totalBreakSeconds := 0,
                      sessions := [{ mode := TimerMode.focus, startedAt := 0,
                                     endedAt := 77, scheduledDuration := 1500,
                                     elapsedSeconds := 3, interrupted := true,
                                     id := "r1" }],
                      trackedSeconds := 0, timerStartedAt := none }] } := by
  have h := ((logSession_spec (fun _ => "D") (fun _ => "iso") 99 "r1"
      (fun k =>
        if k = "D" then
          some
            { key := "D", dateISO := "2026-10-11", createdAt := 5,
              activeTaskId := some "t1",
              tasks := [{ id := "t1", title := "T", createdAt := 0,
                          updatedAt := 0, totalFocusSeconds := 0,
                          totalBreakSeconds := 0, sessions := [],
                          trackedSeconds := 0, timerStartedAt := none }] }
        else none)
      { mode := TimerMode.focus, startedAt := 0, endedAt := 77,
        scheduledDuration := 1500, elapsedSeconds := 3, interrupted := true }).2
      { key := "D", dateISO := "2026-10-11", createdAt := 5,
        activeTaskId := some "t1",
        tasks := [{ id := "t1", title := "T", createdAt := 0,
                    updatedAt := 0, totalFocusSeconds := 0,
                    totalBreakSeconds := 0, sessions := [],
                    trackedSeconds := 0, timerStartedAt := none }] }
      (by decide)).2 0
      { id := "t1", title := "T", createdAt := 0, updatedAt := 0,
        totalFocusSeconds := 0, totalBreakSeconds := 0, sessions := [],
        trackedSeconds := 0, timerStartedAt := none }
      (by decide) (by decide) (by decide)
  exact h

end Pomodoro
